import Mathlib

/-!
Verification of the pintos kernel thread scheduler (src/pintos/src/threads/thread.c)
against its natural-language specification.  The C code is shallowly embedded:
scheduler state becomes an explicit record, the functions of thread.c become pure
state transformers, machine integers become unbounded integers (the spec notes that
the MLFQ fixed-point values never approach the 32 bit range).  Collaborator code
that is not among the sources (threads/thread.h constants, threads/fixed-point.h,
lib/kernel/list.c, threads/synch.h) is modelled from the spec, as marked on each
such definition.
-/

set_option linter.unusedVariables false
set_option maxRecDepth 10000
set_option maxHeartbeats 1000000

namespace Pintos

/-- Thread identifier; stands for the address of a struct thread in the C code. -/
abbrev TId := Nat

/-- Modelled from the spec: threads/thread.h is not among the sources; the spec
fixes PRI_MIN / PRI_DEFAULT / PRI_MAX to 0 / 31 / 63. -/
def PRI_MIN : Int := 0

/-- Modelled from the spec: highest thread priority. -/
def PRI_MAX : Int := 63

/-- Modelled from the spec: default thread priority. -/
def PRI_DEFAULT : Int := 31

/-- Modelled from the spec: devices/timer.h is not among the sources; TIMER_FREQ
is the number of timer ticks per second, typically 100. -/
def TIMER_FREQ : Int := 100

/-- Number of timer ticks to give each thread (TIME_SLICE in thread.c). -/
def TIME_SLICE : Int := 4

/-- Number of MLFQ queues, PRI_MAX - PRI_MIN + 1 (MLFQ_QUEUE_SIZE in thread.c). -/
def MLFQ_QUEUE_SIZE : Nat := 64

/-- Modelled from the spec: threads/fixed-point.h is not among the sources.  The
spec prescribes signed 17.14 fixed point, so a fixed-point number is an integer
counting units of 2 ^ (-14); fix_f is the scale factor 2 ^ 14. -/
def fix_f : Int := 16384

/-- Modelled from the spec: integer to fixed point. -/
def fix_int (n : Int) : Int := n * fix_f

/-- Modelled from the spec: fixed-point addition. -/
def fix_add (a b : Int) : Int := a + b

/-- Modelled from the spec: fixed-point multiplication; the 64 bit product is
shifted right arithmetically by 14, which is flooring division by the scale. -/
def fix_mul (a b : Int) : Int := Int.fdiv (a * b) fix_f

/-- Modelled from the spec: fixed-point division; the dividend is widened and
shifted left by 14, then divided with C truncating division. -/
def fix_div (a b : Int) : Int := Int.tdiv (a * fix_f) b

/-- Modelled from the spec: the fixed-point fraction n / d. -/
def fix_frac (n d : Int) : Int := Int.tdiv (n * fix_f) d

/-- Modelled from the spec: round a fixed-point number to the nearest integer,
computed as the arithmetic right shift of x + 2 ^ 13 by 14 bits. -/
def fix_round (x : Int) : Int := Int.fdiv (x + 8192) fix_f

/-- Modelled from the spec: add one fixed-point unit. -/
def fix_increment (x : Int) : Int := x + fix_f

/-- Modelled from the spec: lib/kernel/list.c is not among the sources.  Ordered
insertion walks the list and places the new element before the first element for
which the comparator holds, so ties go after existing equals (spec section 4.B). -/
def list_insert_ordered {α : Type} (less : α → α → Bool) (x : α) : List α → List α
  | [] => [x]
  | y :: ys => if less x y then x :: y :: ys else y :: list_insert_ordered less x ys

/-- Thread status (enum thread_status in thread.h, values named by the spec). -/
inductive ThreadStatus
  | running
  | ready
  | blocked
  | dying
deriving DecidableEq

/-- Reason a thread is blocked (the tag of struct thread_blocked). -/
inductive BlockReason
  | unknown
  | sleeping
  | waiting_on_lock
deriving DecidableEq

/-- The blocked descriptor of a thread (struct thread_blocked): a tag plus the
wakeup tick used when sleeping and the lock waited on, kept as plain fields the
way the C struct keeps them. -/
structure ThreadBlocked where
  reason : BlockReason
  sleeping_wakeup_time : Int
  lock : Nat
deriving DecidableEq

/-- The scheduler-relevant fields of struct thread. -/
structure Thread where
  priority : Int
  donated_priority : Int
  nice : Int
  recent_cpu : Int
  status : ThreadStatus
  blocked : ThreadBlocked
  owned_locks : List Nat
deriving DecidableEq

/-- Modelled from the spec: threads/synch.h is not among the sources.  A lock has
a holder and, through its semaphore, a list of waiting threads (spec sections 3
and 4.F). -/
structure Lock where
  holder : TId
  waiters : List TId

/-- Read queue i of the MLFQ queue array (thread_mlfq.queues[i]); the C indices
are ints but always lie in [PRI_MIN, PRI_MAX]. -/
def queue_at (qs : List (List TId)) (i : Int) : List TId := qs.getD i.toNat []

/-- Write queue i of the MLFQ queue array. -/
def queue_set (qs : List (List TId)) (i : Int) (l : List TId) : List (List TId) :=
  qs.set i.toNat l

/-- The global scheduler state of thread.c: the thread and lock heaps, the ready
list, the sleeping list, the all-threads list, the MLFQ queue array (a list of
MLFQ_QUEUE_SIZE queues) with its size counter, the running and idle threads, the
policy flag, load_avg, the timer tick count (timer_ticks of devices/timer.c),
the slice counter, the tick statistics, and the yield-on-return flag of the
interrupt gate. -/
structure KState where
  threads : TId → Thread
  locks : Nat → Lock
  ready_list : List TId
  blocked_sleeping_list : List TId
  all_list : List TId
  mlfq_queues : List (List TId)
  mlfq_size : Int
  cur : TId
  idle_thread : TId
  thread_mlfqs : Bool
  load_avg : Int
  ticks : Int
  thread_ticks : Int
  idle_ticks : Int
  kernel_ticks : Int
  yield_on_return : Bool

/-- Update one thread record in the heap. -/
def updThread (s : KState) (id : TId) (f : Thread → Thread) : KState :=
  { s with threads := fun i => if i = id then f (s.threads i) else s.threads i }

/-- thread_get_effective_priority: the larger of donated and base priority. -/
def thread_get_effective_priority (t : Thread) : Int :=
  if t.donated_priority > t.priority then t.donated_priority else t.priority

/-- priority_thread_less_func: threads with higher effective priority come before
threads with lower effective priority. -/
def priority_thread_less_func (s : KState) (a b : TId) : Bool :=
  decide (thread_get_effective_priority (s.threads a) >
          thread_get_effective_priority (s.threads b))

/-- sleeping_thread_less_func: ascending wake up time. -/
def sleeping_thread_less_func (s : KState) (a b : TId) : Bool :=
  decide ((s.threads a).blocked.sleeping_wakeup_time <
          (s.threads b).blocked.sleeping_wakeup_time)

/-- mlfq_get_priority: PRI_MAX - round(recent_cpu / 4) - nice * 2, clamped into
[0, PRI_MAX]. -/
def mlfq_get_priority (t : Thread) : Int :=
  let unbound_priority :=
    PRI_MAX - fix_round (fix_div t.recent_cpu (fix_int 4)) - (t.nice * 2)
  if unbound_priority > PRI_MAX then PRI_MAX
  else if unbound_priority < 0 then 0
  else unbound_priority

/-- mlfq_add_thread: bump the size counter and push the thread at the back of the
queue of its MLFQ priority. -/
def mlfq_add_thread (s : KState) (id : TId) : KState :=
  let s1 := { s with mlfq_size := s.mlfq_size + 1 }
  let priority := mlfq_get_priority (s1.threads id)
  { s1 with mlfq_queues :=
              queue_set s1.mlfq_queues priority
                (queue_at s1.mlfq_queues priority ++ [id]) }

/-- thread_unblock: insert the thread into the ready structure of the active
policy, mark it READY and clear the blocked reason.  The C ASSERT that the thread
is blocked becomes a hypothesis of the theorems about this function. -/
def thread_unblock (s : KState) (id : TId) : KState :=
  let s1 :=
    if s.thread_mlfqs then mlfq_add_thread s id
    else { s with ready_list :=
                    list_insert_ordered (priority_thread_less_func s) id s.ready_list }
  updThread s1 id (fun t =>
    { t with
        status := ThreadStatus.ready
        blocked := { t.blocked with reason := BlockReason.unknown } })

/-- Loop body of try_wake_up_sleeping_threads, with fuel standing for the bound
on the number of iterations; the driver passes the length of the sleeping list,
which the loop strictly consumes. -/
def try_wake_go : Nat → KState → KState
  | 0, s => s
  | fuel + 1, s =>
    match s.blocked_sleeping_list with
    | [] => s
    | id :: rest =>
      if (s.threads id).blocked.sleeping_wakeup_time > s.ticks then s
      else
        try_wake_go fuel (thread_unblock { s with blocked_sleeping_list := rest } id)

/-- try_wake_up_sleeping_threads: while the head of the sleeping list has a wake
up time not in the future, pop it and unblock it. -/
def try_wake_up_sleeping_threads (s : KState) : KState :=
  try_wake_go s.blocked_sleeping_list.length s

/-- thread_sleep_until: mark the current thread blocked and sleeping with the
given absolute wake up tick and insert it into the sleeping list in ascending
wake up order, unless it is the idle thread.  The trailing call to schedule is
the context switch, outside this embedding. -/
def thread_sleep_until (s : KState) (ticks : Int) : KState :=
  let cur := s.cur
  let s1 := updThread s cur (fun t =>
    { t with
        status := ThreadStatus.blocked
        blocked := { t.blocked with
                      reason := BlockReason.sleeping
                      sleeping_wakeup_time := ticks } })
  if cur ≠ s1.idle_thread then
    { s1 with blocked_sleeping_list :=
                list_insert_ordered (sleeping_thread_less_func s1) cur
                  s1.blocked_sleeping_list }
  else s1

/-- thread_yield: put the current thread (unless idle) back into the ready
structure of the active policy and mark it READY.  The trailing call to schedule
is the context switch, outside this embedding. -/
def thread_yield (s : KState) : KState :=
  let cur := s.cur
  let s1 :=
    if cur ≠ s.idle_thread then
      if s.thread_mlfqs then mlfq_add_thread s cur
      else { s with ready_list :=
                      list_insert_ordered (priority_thread_less_func s) cur s.ready_list }
    else s
  updThread s1 cur (fun t => { t with status := ThreadStatus.ready })

/-- thread_receive_donated_priority: raise the donated priority of the thread if
the donation is larger; a READY thread is removed from the ready list and
reinserted in effective-priority order. -/
def thread_receive_donated_priority (s : KState) (id : TId) (donated : Int) : KState :=
  if donated > (s.threads id).donated_priority then
    let s1 := updThread s id (fun t => { t with donated_priority := donated })
    if (s1.threads id).status = ThreadStatus.ready then
      { s1 with ready_list :=
                  list_insert_ordered (priority_thread_less_func s1) id
                    (s1.ready_list.erase id) }
    else s1
  else s

/-- While loop of thread_donate_priority: as long as the current thread of the
walk is BLOCKED with reason WAITING_ON_LOCK, move to the holder of that lock and
give it the donation.  The C loop carries no bound, so the embedding uses fuel
and returns none when the fuel runs out before the walk ends. -/
def donate_go (gift : Int) : Nat → KState → TId → Option KState
  | 0, s, cur =>
    if (s.threads cur).status = ThreadStatus.blocked ∧
       (s.threads cur).blocked.reason = BlockReason.waiting_on_lock
    then none else some s
  | fuel + 1, s, cur =>
    if (s.threads cur).status = ThreadStatus.blocked ∧
       (s.threads cur).blocked.reason = BlockReason.waiting_on_lock
    then
      let nxt := (s.locks (s.threads cur).blocked.lock).holder
      donate_go gift fuel (thread_receive_donated_priority s nxt gift) nxt
    else some s

/-- thread_donate_priority: give the donation to the receiver, then walk the
chain of lock holders. -/
def thread_donate_priority (s : KState) (receiver : TId) (gift : Int) (fuel : Nat) :
    Option KState :=
  donate_go gift fuel (thread_receive_donated_priority s receiver gift) receiver

/-- The chain of threads visited by thread_donate_priority: the receiver, then
repeatedly the holder of the lock the current thread waits on, ending at the
first thread that is not blocked waiting on a lock (or when the fuel ends). -/
def donate_chain (s : KState) : Nat → TId → List TId
  | 0, cur => [cur]
  | fuel + 1, cur =>
    if (s.threads cur).status = ThreadStatus.blocked ∧
       (s.threads cur).blocked.reason = BlockReason.waiting_on_lock
    then cur :: donate_chain s fuel ((s.locks (s.threads cur).blocked.lock).holder)
    else [cur]

/-- A thread is blocked waiting on a lock: the guard of the donation walk. -/
def thread_waiting_on_lock (s : KState) (id : TId) : Prop :=
  (s.threads id).status = ThreadStatus.blocked ∧
  (s.threads id).blocked.reason = BlockReason.waiting_on_lock

instance (s : KState) (id : TId) : Decidable (thread_waiting_on_lock s id) := by
  unfold thread_waiting_on_lock; infer_instance

/-- thread_calculate_donated_priority: the running maximum, starting at 0, of the
effective priorities of the threads waiting on the locks the thread holds. -/
def thread_calculate_donated_priority (s : KState) (id : TId) : Int :=
  (s.threads id).owned_locks.foldl
    (fun max_priority lid =>
      (s.locks lid).waiters.foldl
        (fun m wid =>
          let waiter_effective_priority := thread_get_effective_priority (s.threads wid)
          if waiter_effective_priority > m then waiter_effective_priority else m)
        max_priority)
    0

/-- thread_set_nice: clamp the argument into [-20, 20] and store it on the
current thread. -/
def thread_set_nice (s : KState) (nice : Int) : KState :=
  let n := if nice > 20 then 20 else if nice < -20 then -20 else nice
  updThread s s.cur (fun t => { t with nice := n })

/-- thread_get_nice: the nice value of the current thread. -/
def thread_get_nice (s : KState) : Int := (s.threads s.cur).nice

/-- Inner while loop of mlfq_update over one queue: kept holds the processed
elements that stay in queue i, the list argument is the unprocessed tail of
queue i; a thread whose MLFQ priority differs from i is removed and pushed at
the back of the queue of its new priority. -/
def mlfq_scan_go (thr : TId → Thread) (i : Int) (qs : List (List TId)) (kept : List TId) :
    List TId → List (List TId)
  | [] => queue_set qs i kept
  | id :: rest =>
    let new_priority := mlfq_get_priority (thr id)
    if new_priority = i then mlfq_scan_go thr i qs (kept ++ [id]) rest
    else
      mlfq_scan_go thr i
        (queue_set qs new_priority (queue_at qs new_priority ++ [id])) kept rest

/-- mlfq_update: for each queue index i from PRI_MIN to PRI_MAX, move every
thread of queue i whose recomputed MLFQ priority differs from i to the back of
the queue of its new priority. -/
def mlfq_update (s : KState) : KState :=
  { s with mlfq_queues :=
              (List.range MLFQ_QUEUE_SIZE).foldl
                (fun qs n => mlfq_scan_go s.threads (Int.ofNat n) qs []
                               (queue_at qs (Int.ofNat n)))
                s.mlfq_queues }

/-- The recent_cpu decay coefficient (2 * load_avg) / (2 * load_avg + 1) computed
inside the per-second loop of thread_tick. -/
def recent_cpu_scale (la : Int) : Int :=
  fix_div (fix_mul (fix_int 2) la) (fix_add (fix_mul (fix_int 2) la) (fix_int 1))

/-- Body of the per-second loop of thread_tick over all_list: the idle thread is
skipped, every other thread gets recent_cpu scaled by the decay coefficient of
the current load_avg plus its nice value. -/
def decay_step (acc : KState) (id : TId) : KState :=
  if id = acc.idle_thread then acc
  else
    updThread acc id (fun t =>
      { t with recent_cpu :=
                  fix_add (fix_mul (recent_cpu_scale acc.load_avg) t.recent_cpu)
                    (fix_int t.nice) })

/-- First statement block of thread_tick: attribute the tick to the idle or
kernel statistics counter (the USERPROG branch is compiled out in this kernel
configuration).  The running thread t of the C code is s.cur, which no step of
the handler changes. -/
def thread_tick_stats (s : KState) : KState :=
  if s.cur = s.idle_thread then { s with idle_ticks := s.idle_ticks + 1 }
  else { s with kernel_ticks := s.kernel_ticks + 1 }

/-- Second statement block of thread_tick: increment the recent_cpu of the
running thread unless it is the idle thread. -/
def thread_tick_increment (s : KState) : KState :=
  if s.cur ≠ s.idle_thread then
    updThread s s.cur (fun th => { th with recent_cpu := fix_increment th.recent_cpu })
  else s

/-- Third statement block of thread_tick: when timer_ticks() is a multiple of
TIMER_FREQ and MLFQ is active, update load_avg from the number of ready
threads, decay the recent_cpu of every thread in the all-threads list except
idle using the just-updated load_avg, and rebucket the MLFQ queues. -/
def thread_tick_update (s : KState) : KState :=
  if s.ticks % TIMER_FREQ = 0 ∧ s.thread_mlfqs = true then
    let threads_ready_to_run := s.mlfq_size + (if s.cur ≠ s.idle_thread then 1 else 0)
    let s1a := { s with load_avg :=
                          fix_add (fix_mul (fix_frac 59 60) s.load_avg)
                            (fix_mul (fix_frac 1 60) (fix_int threads_ready_to_run)) }
    mlfq_update (s1a.all_list.foldl decay_step s1a)
  else s

/-- Final statement block of thread_tick: increment the slice counter and
request yield-on-return when the slice is used up. -/
def thread_tick_slice (s : KState) : KState :=
  let s4 := { s with thread_ticks := s.thread_ticks + 1 }
  if s4.thread_ticks ≥ TIME_SLICE then { s4 with yield_on_return := true } else s4

/-- thread_tick: the statement blocks of the C tick handler in order: the
statistics, the per-tick recent_cpu increment, the per-second MLFQ
recomputation, the wake sweep, the slice bookkeeping. -/
def thread_tick (s : KState) : KState :=
  thread_tick_slice (try_wake_up_sleeping_threads
    (thread_tick_update (thread_tick_increment (thread_tick_stats s))))

/-- Scan of the MLFQ queues from PRI_MAX down to PRI_MIN in next_thread_to_run:
pop the front of the first non-empty queue and decrement the size counter; none
models the NOT_REACHED exit when every queue is empty. -/
def mlfq_pop_from (s : KState) : List Int → Option (TId × KState)
  | [] => none
  | i :: rest =>
    match queue_at s.mlfq_queues i with
    | [] => mlfq_pop_from s rest
    | id :: q =>
      some (id, { s with mlfq_size := s.mlfq_size - 1,
                         mlfq_queues := queue_set s.mlfq_queues i q })

/-- The descending queue indices PRI_MAX, ..., PRI_MIN. -/
def mlfq_scan_order : List Int :=
  ((List.range MLFQ_QUEUE_SIZE).reverse).map (fun n => Int.ofNat n)

/-- next_thread_to_run: under MLFQ return idle when the size counter is 0 and
otherwise pop from the highest non-empty queue; under the priority policy return
idle when the ready list is empty and otherwise pop its front. -/
def next_thread_to_run (s : KState) : Option (TId × KState) :=
  if s.thread_mlfqs then
    if s.mlfq_size = 0 then some (s.idle_thread, s)
    else mlfq_pop_from s mlfq_scan_order
  else
    match s.ready_list with
    | [] => some (s.idle_thread, s)
    | id :: rest => some (id, { s with ready_list := rest })

/-- init_thread: the record is zeroed and then set up blocked with reason
UNKNOWN, the given base priority, no donation and no owned locks, and the thread
is appended to the all-threads list.  Stack, name and magic are outside this
embedding. -/
def init_thread (s : KState) (id : TId) (priority : Int) : KState :=
  let s1 := { s with threads := fun i =>
                        if i = id then
                          { priority := priority
                            donated_priority := 0
                            nice := 0
                            recent_cpu := 0
                            status := ThreadStatus.blocked
                            blocked := { reason := BlockReason.unknown
                                         sleeping_wakeup_time := 0
                                         lock := 0 }
                            owned_locks := [] }
                        else s.threads i }
  { s1 with all_list := s1.all_list ++ [id] }

/-- thread_create: initialize the new thread, inherit recent_cpu and nice from
the creator, unblock it, and yield when the new base priority exceeds the base
priority of the creator under the priority policy.  Page allocation, the stack
frames and tid allocation are outside this embedding; newId stands for the fresh
thread. -/
def thread_create (s : KState) (newId : TId) (priority : Int) : KState :=
  let s1 := init_thread s newId priority
  let s2 := updThread s1 newId (fun t =>
    { t with recent_cpu := (s1.threads s1.cur).recent_cpu,
             nice := (s1.threads s1.cur).nice })
  let s3 := thread_unblock s2 newId
  if priority > (s3.threads s3.cur).priority ∧ s3.thread_mlfqs = false then
    thread_yield s3
  else s3

/-- A thread record with every field zeroed, as left by memset in init_thread. -/
def defaultThread : Thread :=
  { priority := 0
    donated_priority := 0
    nice := 0
    recent_cpu := 0
    status := ThreadStatus.blocked
    blocked := { reason := BlockReason.unknown, sleeping_wakeup_time := 0, lock := 0 }
    owned_locks := [] }

/-- A quiescent scheduler state: no ready, sleeping or known threads, priority
policy, thread 0 running, the idle thread at identifier 999. -/
def baseState : KState :=
  { threads := fun _ => defaultThread
    locks := fun _ => { holder := 0, waiters := [] }
    ready_list := []
    blocked_sleeping_list := []
    all_list := []
    mlfq_queues := List.replicate MLFQ_QUEUE_SIZE []
    mlfq_size := 0
    cur := 0
    idle_thread := 999
    thread_mlfqs := false
    load_avg := 0
    ticks := 0
    thread_ticks := 0
    idle_ticks := 0
    kernel_ticks := 0
    yield_on_return := false }

/-- Concrete state for claim C1: the running creator (thread 0) has base
priority 10 but donated priority 30, so base and effective priority differ. -/
def c1State : KState :=
  { baseState with
      threads := fun id =>
        if id = 0 then
          { defaultThread with
              priority := 10
              donated_priority := 30
              status := ThreadStatus.running }
        else defaultThread
      all_list := [0] }

/-- Concrete state for claim C2: running thread 0 holds lock 5, on which thread
1, with base and donated priority both 0, waits. -/
def c2State : KState :=
  { baseState with
      threads := fun id =>
        if id = 0 then
          { defaultThread with status := ThreadStatus.running, owned_locks := [5] }
        else defaultThread
      locks := fun lid =>
        if lid = 5 then { holder := 0, waiters := [1] } else { holder := 0, waiters := [] }
      all_list := [0, 1] }

/-- Concrete state for claim C3: thread 0 is blocked waiting on lock 1, which is
held by the running thread 1, giving the donation chain 0, 1. -/
def c3State : KState :=
  { baseState with
      threads := fun id =>
        if id = 0 then
          { defaultThread with
              status := ThreadStatus.blocked
              blocked := { reason := BlockReason.waiting_on_lock
                           sleeping_wakeup_time := 0
                           lock := 1 } }
        else if id = 1 then
          { defaultThread with priority := 5, status := ThreadStatus.running }
        else defaultThread
      locks := fun lid =>
        if lid = 1 then { holder := 1, waiters := [0] } else { holder := 0, waiters := [] }
      cur := 1
      all_list := [0, 1] }

/-- Concrete state for claim C4: MLFQ is active and thread 1, whose MLFQ
priority evaluates to 63, sits in queue 0, so mlfq_update must move it. -/
def c4State : KState :=
  { baseState with
      threads := fun id =>
        if id = 1 then { defaultThread with status := ThreadStatus.ready } else defaultThread
      mlfq_queues := [1] :: List.replicate 63 []
      mlfq_size := 1
      thread_mlfqs := true
      all_list := [1] }

/-- Concrete state for claim C5: threads 1 and 2 sleep until ticks 5 and 20, the
clock stands at 10, so exactly thread 1 must wake. -/
def c5State : KState :=
  { baseState with
      threads := fun id =>
        if id = 0 then { defaultThread with status := ThreadStatus.running }
        else if id = 1 then
          { defaultThread with
              blocked := { reason := BlockReason.sleeping
                           sleeping_wakeup_time := 5
                           lock := 0 } }
        else if id = 2 then
          { defaultThread with
              blocked := { reason := BlockReason.sleeping
                           sleeping_wakeup_time := 20
                           lock := 0 } }
        else defaultThread
      blocked_sleeping_list := [1, 2]
      ticks := 10
      all_list := [0, 1, 2] }

/-- Concrete state for claim C6: MLFQ is active, the tick count 200 is on a
second boundary, thread 0 runs and thread 1 is ready with nonzero recent_cpu. -/
def c6State : KState :=
  { baseState with
      threads := fun id =>
        if id = 0 then { defaultThread with status := ThreadStatus.running }
        else if id = 1 then
          { defaultThread with
              status := ThreadStatus.ready
              recent_cpu := 49152
              nice := 1 }
        else defaultThread
      mlfq_queues := List.replicate 61 [] ++ [[1]] ++ List.replicate 2 []
      mlfq_size := 1
      thread_mlfqs := true
      load_avg := 16384
      ticks := 200
      all_list := [0, 1] }

/-- Concrete state for claim C8: thread 0 runs while thread 3 is blocked. -/
def c8State : KState :=
  { baseState with
      threads := fun id =>
        if id = 0 then { defaultThread with status := ThreadStatus.running }
        else defaultThread
      all_list := [0, 3] }

/-- Concrete state for claim C10: the priority policy is active, thread 0 runs
and the tick count 7 is not on a second boundary. -/
def c10State : KState :=
  { baseState with
      threads := fun id =>
        if id = 0 then { defaultThread with status := ThreadStatus.running, recent_cpu := 100 }
        else defaultThread
      ticks := 7
      all_list := [0] }

/-! Projection lemmas for updThread and the translated operations. -/

@[simp] theorem updThread_cur (s : KState) (id : TId) (f : Thread → Thread) :
    (updThread s id f).cur = s.cur := rfl

@[simp] theorem updThread_mlfqs (s : KState) (id : TId) (f : Thread → Thread) :
    (updThread s id f).thread_mlfqs = s.thread_mlfqs := rfl

@[simp] theorem updThread_ready (s : KState) (id : TId) (f : Thread → Thread) :
    (updThread s id f).ready_list = s.ready_list := rfl

@[simp] theorem updThread_bsl (s : KState) (id : TId) (f : Thread → Thread) :
    (updThread s id f).blocked_sleeping_list = s.blocked_sleeping_list := rfl

@[simp] theorem updThread_ticks (s : KState) (id : TId) (f : Thread → Thread) :
    (updThread s id f).ticks = s.ticks := rfl

theorem updThread_threads_ne (s : KState) (id : TId) (f : Thread → Thread) (j : TId)
    (h : j ≠ id) : (updThread s id f).threads j = s.threads j := by
  simp [updThread, h]

theorem updThread_threads_self (s : KState) (id : TId) (f : Thread → Thread) :
    (updThread s id f).threads id = f (s.threads id) := by
  simp [updThread]

@[simp] theorem init_thread_cur (s : KState) (id : TId) (p : Int) :
    (init_thread s id p).cur = s.cur := rfl

@[simp] theorem init_thread_mlfqs (s : KState) (id : TId) (p : Int) :
    (init_thread s id p).thread_mlfqs = s.thread_mlfqs := rfl

@[simp] theorem init_thread_idle (s : KState) (id : TId) (p : Int) :
    (init_thread s id p).idle_thread = s.idle_thread := rfl

theorem init_thread_threads_ne (s : KState) (id : TId) (p : Int) (j : TId)
    (h : j ≠ id) : (init_thread s id p).threads j = s.threads j := by
  simp [init_thread, h]

theorem thread_unblock_cur (s : KState) (id : TId) :
    (thread_unblock s id).cur = s.cur := by
  by_cases h : s.thread_mlfqs <;> simp [thread_unblock, mlfq_add_thread, updThread, h]

theorem thread_unblock_mlfqs (s : KState) (id : TId) :
    (thread_unblock s id).thread_mlfqs = s.thread_mlfqs := by
  by_cases h : s.thread_mlfqs <;> simp [thread_unblock, mlfq_add_thread, updThread, h]

theorem thread_unblock_idle (s : KState) (id : TId) :
    (thread_unblock s id).idle_thread = s.idle_thread := by
  by_cases h : s.thread_mlfqs <;> simp [thread_unblock, mlfq_add_thread, updThread, h]

theorem thread_unblock_bsl (s : KState) (id : TId) :
    (thread_unblock s id).blocked_sleeping_list = s.blocked_sleeping_list := by
  by_cases h : s.thread_mlfqs <;> simp [thread_unblock, mlfq_add_thread, updThread, h]

theorem thread_unblock_ticks (s : KState) (id : TId) :
    (thread_unblock s id).ticks = s.ticks := by
  by_cases h : s.thread_mlfqs <;> simp [thread_unblock, mlfq_add_thread, updThread, h]

theorem thread_unblock_load_avg (s : KState) (id : TId) :
    (thread_unblock s id).load_avg = s.load_avg := by
  by_cases h : s.thread_mlfqs <;> simp [thread_unblock, mlfq_add_thread, updThread, h]

theorem thread_unblock_all_list (s : KState) (id : TId) :
    (thread_unblock s id).all_list = s.all_list := by
  by_cases h : s.thread_mlfqs <;> simp [thread_unblock, mlfq_add_thread, updThread, h]

theorem thread_unblock_locks (s : KState) (id : TId) :
    (thread_unblock s id).locks = s.locks := by
  by_cases h : s.thread_mlfqs <;> simp [thread_unblock, mlfq_add_thread, updThread, h]

theorem thread_unblock_thread_ticks (s : KState) (id : TId) :
    (thread_unblock s id).thread_ticks = s.thread_ticks := by
  by_cases h : s.thread_mlfqs <;> simp [thread_unblock, mlfq_add_thread, updThread, h]

theorem thread_unblock_yor (s : KState) (id : TId) :
    (thread_unblock s id).yield_on_return = s.yield_on_return := by
  by_cases h : s.thread_mlfqs <;> simp [thread_unblock, mlfq_add_thread, updThread, h]

theorem thread_unblock_threads_ne (s : KState) (id : TId) (j : TId) (h : j ≠ id) :
    (thread_unblock s id).threads j = s.threads j := by
  by_cases hm : s.thread_mlfqs <;>
    simp [thread_unblock, mlfq_add_thread, updThread, h, hm]

theorem thread_unblock_threads_self (s : KState) (id : TId) :
    (thread_unblock s id).threads id =
      { s.threads id with
          status := ThreadStatus.ready
          blocked := { (s.threads id).blocked with reason := BlockReason.unknown } } := by
  by_cases hm : s.thread_mlfqs <;>
    simp [thread_unblock, mlfq_add_thread, updThread, hm]

theorem thread_unblock_threads_recent_cpu (s : KState) (id : TId) (j : TId) :
    ((thread_unblock s id).threads j).recent_cpu = (s.threads j).recent_cpu := by
  by_cases h : j = id
  · subst h; rw [thread_unblock_threads_self]
  · rw [thread_unblock_threads_ne s id j h]

theorem thread_unblock_threads_nice (s : KState) (id : TId) (j : TId) :
    ((thread_unblock s id).threads j).nice = (s.threads j).nice := by
  by_cases h : j = id
  · subst h; rw [thread_unblock_threads_self]
  · rw [thread_unblock_threads_ne s id j h]

theorem thread_unblock_threads_wakeup (s : KState) (id : TId) (j : TId) :
    ((thread_unblock s id).threads j).blocked.sleeping_wakeup_time =
      (s.threads j).blocked.sleeping_wakeup_time := by
  by_cases h : j = id
  · subst h; rw [thread_unblock_threads_self]
  · rw [thread_unblock_threads_ne s id j h]

theorem thread_unblock_threads_eff (s : KState) (id : TId) (j : TId) :
    thread_get_effective_priority ((thread_unblock s id).threads j) =
      thread_get_effective_priority (s.threads j) := by
  by_cases h : j = id
  · subst h; rw [thread_unblock_threads_self]; rfl
  · rw [thread_unblock_threads_ne s id j h]

theorem thread_yield_status_at (u : KState) (j : TId) (h : j = u.cur) :
    ((thread_yield u).threads j).status = ThreadStatus.ready := by
  subst h
  by_cases h1 : u.cur = u.idle_thread <;> by_cases h2 : u.thread_mlfqs <;>
    simp [thread_yield, mlfq_add_thread, updThread, h1, h2]

/-! Claim C9: thread_set_nice and thread_get_nice. -/

/-- Claim C9: thread_set_nice stores the argument clamped into [-20, 20] on the
current thread, so a thread_get_nice immediately afterwards returns exactly the
clamp; nothing else changes: every other thread record, every other field of the
record of the current thread, and every other component of the scheduler state
stay as they were. -/
theorem thread_set_nice_get_nice_clamp (s : KState) (n : Int) :
    thread_get_nice (thread_set_nice s n) = max (-20) (min 20 n) ∧
    (∀ j, j ≠ s.cur → (thread_set_nice s n).threads j = s.threads j) ∧
    ((thread_set_nice s n).threads s.cur).priority = (s.threads s.cur).priority ∧
    ((thread_set_nice s n).threads s.cur).donated_priority =
      (s.threads s.cur).donated_priority ∧
    ((thread_set_nice s n).threads s.cur).recent_cpu = (s.threads s.cur).recent_cpu ∧
    ((thread_set_nice s n).threads s.cur).status = (s.threads s.cur).status ∧
    ((thread_set_nice s n).threads s.cur).blocked = (s.threads s.cur).blocked ∧
    ((thread_set_nice s n).threads s.cur).owned_locks = (s.threads s.cur).owned_locks ∧
    (thread_set_nice s n).ready_list = s.ready_list ∧
    (thread_set_nice s n).blocked_sleeping_list = s.blocked_sleeping_list ∧
    (thread_set_nice s n).all_list = s.all_list ∧
    (thread_set_nice s n).mlfq_queues = s.mlfq_queues ∧
    (thread_set_nice s n).mlfq_size = s.mlfq_size ∧
    (thread_set_nice s n).cur = s.cur ∧
    (thread_set_nice s n).load_avg = s.load_avg ∧
    (thread_set_nice s n).yield_on_return = s.yield_on_return := by
  refine ⟨?_, ?_, ?_, ?_, ?_, ?_, ?_, ?_, rfl, rfl, rfl, rfl, rfl, rfl, rfl, rfl⟩
  · simp [thread_get_nice, thread_set_nice, updThread]
    split_ifs <;> omega
  · intro j hj
    simp [thread_set_nice, updThread, hj]
  all_goals simp [thread_set_nice, updThread]

/-- Witness for claim C9 at concrete inputs 50 and -50. -/
theorem thread_set_nice_get_nice_clamp_witness :
    thread_get_nice (thread_set_nice baseState 50) = 20 ∧
    thread_get_nice (thread_set_nice baseState (-50)) = -20 := by
  constructor
  · exact (thread_set_nice_get_nice_clamp baseState 50).1.trans (by norm_num)
  · exact (thread_set_nice_get_nice_clamp baseState (-50)).1.trans (by norm_num)

/-! Running-maximum fold lemmas, for the two nested loops of
thread_calculate_donated_priority. -/

theorem foldl_max_le_init (g : TId → Int) (l : List TId) : ∀ a : Int,
    a ≤ l.foldl (fun m w => if g w > m then g w else m) a := by
  induction l with
  | nil => intro a; simp
  | cons w l ih =>
    intro a
    simp only [List.foldl_cons]
    refine le_trans ?_ (ih (if g w > a then g w else a))
    split <;> omega

theorem foldl_max_le_mem (g : TId → Int) (l : List TId) : ∀ a : Int, ∀ w ∈ l,
    g w ≤ l.foldl (fun m w => if g w > m then g w else m) a := by
  induction l with
  | nil => intro a w hw; simp at hw
  | cons v l ih =>
    intro a w hw
    simp only [List.foldl_cons]
    rcases List.mem_cons.mp hw with h | h
    · subst h
      refine le_trans ?_ (foldl_max_le_init g l _)
      split <;> omega
    · exact ih _ w h

theorem foldl_max_eq_or (g : TId → Int) (l : List TId) : ∀ a : Int,
    l.foldl (fun m w => if g w > m then g w else m) a = a ∨
    ∃ w ∈ l, l.foldl (fun m w => if g w > m then g w else m) a = g w := by
  induction l with
  | nil => intro a; left; rfl
  | cons v l ih =>
    intro a
    simp only [List.foldl_cons]
    rcases ih (if g v > a then g v else a) with h | ⟨w, hw, h⟩
    · by_cases hv : g v > a
      · right
        refine ⟨v, List.mem_cons_self v l, ?_⟩
        rw [h, if_pos hv]
      · left
        rw [h, if_neg hv]
    · right
      exact ⟨w, List.mem_cons_of_mem v hw, h⟩

theorem foldl_outer_le_init (g : TId → Int) (W : Nat → List TId) (l : List Nat) :
    ∀ a : Int,
    a ≤ l.foldl (fun m lid => (W lid).foldl (fun m w => if g w > m then g w else m) m) a := by
  induction l with
  | nil => intro a; simp
  | cons lid l ih =>
    intro a
    simp only [List.foldl_cons]
    exact le_trans (foldl_max_le_init g (W lid) a) (ih _)

theorem foldl_outer_le_mem (g : TId → Int) (W : Nat → List TId) (l : List Nat) :
    ∀ a : Int, ∀ lid ∈ l, ∀ w ∈ W lid,
    g w ≤ l.foldl (fun m lid => (W lid).foldl (fun m w => if g w > m then g w else m) m) a := by
  induction l with
  | nil => intro a lid h; simp at h
  | cons lid0 l ih =>
    intro a lid hlid w hw
    simp only [List.foldl_cons]
    rcases List.mem_cons.mp hlid with h | h
    · subst h
      exact le_trans (foldl_max_le_mem g (W lid) a w hw) (foldl_outer_le_init g W l _)
    · exact ih _ lid h w hw

theorem foldl_outer_eq_or (g : TId → Int) (W : Nat → List TId) (l : List Nat) :
    ∀ a : Int,
    l.foldl (fun m lid => (W lid).foldl (fun m w => if g w > m then g w else m) m) a = a ∨
    ∃ lid ∈ l, ∃ w ∈ W lid,
      l.foldl (fun m lid => (W lid).foldl (fun m w => if g w > m then g w else m) m) a = g w := by
  induction l with
  | nil => intro a; left; rfl
  | cons lid0 l ih =>
    intro a
    simp only [List.foldl_cons]
    rcases ih ((W lid0).foldl (fun m w => if g w > m then g w else m) a) with h | ⟨lid, hlid, w, hw, h⟩
    · rcases foldl_max_eq_or g (W lid0) a with h0 | ⟨w, hw, h0⟩
      · left; rw [h, h0]
      · right
        exact ⟨lid0, List.mem_cons_self lid0 l, w, hw, by rw [h, h0]⟩
    · right
      exact ⟨lid, List.mem_cons_of_mem lid0 hlid, w, hw, h⟩

theorem foldl_outer_all_nil (g : TId → Int) (W : Nat → List TId) (l : List Nat) :
    ∀ a : Int, (∀ lid ∈ l, W lid = []) →
    l.foldl (fun m lid => (W lid).foldl (fun m w => if g w > m then g w else m) m) a = a := by
  induction l with
  | nil => intro a _; rfl
  | cons lid0 l ih =>
    intro a h
    simp only [List.foldl_cons]
    rw [h lid0 (List.mem_cons_self lid0 l)]
    exact ih a (fun lid hl => h lid (List.mem_cons_of_mem lid0 hl))

/-! Claim C2: thread_calculate_donated_priority. -/

/-- Claim C2 (amended): thread_calculate_donated_priority returns the maximum of
0 and the effective priorities of all threads waiting on locks the thread holds:
it is at least 0, it bounds every waiter, and it is either 0 or attained by some
waiter.  When no thread waits on any held lock the result is 0; the converse
direction of the claimed equivalence is false (see the counterexample), because
the result is also 0 when waiters exist whose effective priorities are all 0. -/
theorem thread_calculate_donated_priority_max_spec (s : KState) (id : TId) :
    0 ≤ thread_calculate_donated_priority s id ∧
    (∀ lid ∈ (s.threads id).owned_locks, ∀ w ∈ (s.locks lid).waiters,
        thread_get_effective_priority (s.threads w) ≤
          thread_calculate_donated_priority s id) ∧
    (thread_calculate_donated_priority s id = 0 ∨
      ∃ lid ∈ (s.threads id).owned_locks, ∃ w ∈ (s.locks lid).waiters,
        thread_get_effective_priority (s.threads w) =
          thread_calculate_donated_priority s id) ∧
    ((∀ lid ∈ (s.threads id).owned_locks, (s.locks lid).waiters = []) →
        thread_calculate_donated_priority s id = 0) := by
  refine ⟨?_, ?_, ?_, ?_⟩
  · exact foldl_outer_le_init (fun w => thread_get_effective_priority (s.threads w))
      (fun lid => (s.locks lid).waiters) (s.threads id).owned_locks 0
  · intro lid hlid w hw
    exact foldl_outer_le_mem (fun w => thread_get_effective_priority (s.threads w))
      (fun lid => (s.locks lid).waiters) (s.threads id).owned_locks 0 lid hlid w hw
  · rcases foldl_outer_eq_or (fun w => thread_get_effective_priority (s.threads w))
      (fun lid => (s.locks lid).waiters) (s.threads id).owned_locks 0 with h | ⟨lid, hlid, w, hw, h⟩
    · left; exact h
    · right; exact ⟨lid, hlid, w, hw, h.symm⟩
  · intro h
    exact foldl_outer_all_nil (fun w => thread_get_effective_priority (s.threads w))
      (fun lid => (s.locks lid).waiters) (s.threads id).owned_locks 0 h

/-- Witness for claim C2: in c2State, thread 0 holds lock 5 with waiter 1, and
the computed donated priority bounds the effective priority of that waiter. -/
theorem thread_calculate_donated_priority_max_spec_witness :
    thread_get_effective_priority (c2State.threads 1) ≤
      thread_calculate_donated_priority c2State 0 :=
  (thread_calculate_donated_priority_max_spec c2State 0).2.1 5 (by decide) 1 (by decide)

/-- Claim C2 counterexample: in c2State thread 0 holds lock 5 on which thread 1
waits, yet thread_calculate_donated_priority returns 0 because the waiter has
effective priority 0, refuting the claimed equivalence of a zero result with the
absence of waiters. -/
theorem thread_calculate_donated_priority_zero_counterexample :
    thread_calculate_donated_priority c2State 0 = 0 ∧
    ¬ (∀ lid ∈ (c2State.threads 0).owned_locks, (c2State.locks lid).waiters = []) := by
  constructor
  · decide
  · decide

/-! Claim C1: the yield decision of thread_create. -/

/-- Claim C1 counterexample: in c1State the running creator, thread 0, has base
priority 10 and donated priority 30, hence effective priority 30.  Creating a
thread with base priority 20 under the priority policy makes the creator yield,
observable as its status turning READY, although 20 does not strictly exceed the
effective priority 30; the claim predicts no yield in this situation. -/
theorem thread_create_yield_counterexample :
    thread_get_effective_priority (c1State.threads c1State.cur) = 30 ∧
    ¬ ((20 : Int) > thread_get_effective_priority (c1State.threads c1State.cur)) ∧
    c1State.thread_mlfqs = false ∧
    (c1State.threads c1State.cur).status = ThreadStatus.running ∧
    ((thread_create c1State 1 20).threads c1State.cur).status = ThreadStatus.ready := by
  refine ⟨by decide, by decide, by decide, by decide, by decide⟩

/-- Claim C1 (amended): thread_create compares the new base priority against the
base (not the effective) priority of the creator.  Under the priority policy the
creator yields, its status turning READY, exactly when the new base priority
strictly exceeds the base priority of the creator; otherwise, and always under
MLFQ, no yield happens and the creator stays RUNNING. -/
theorem thread_create_yield_on_base_priority (s : KState) (newId : TId) (priority : Int)
    (hne : newId ≠ s.cur) (hrun : (s.threads s.cur).status = ThreadStatus.running) :
    ((priority > (s.threads s.cur).priority ∧ s.thread_mlfqs = false) →
      ((thread_create s newId priority).threads s.cur).status = ThreadStatus.ready) ∧
    (¬ (priority > (s.threads s.cur).priority ∧ s.thread_mlfqs = false) →
      ((thread_create s newId priority).threads s.cur).status = ThreadStatus.running) := by
  have hne2 : s.cur ≠ newId := Ne.symm hne
  have hcur : (thread_unblock (updThread (init_thread s newId priority) newId
      (fun t => { t with
          recent_cpu := ((init_thread s newId priority).threads
            (init_thread s newId priority).cur).recent_cpu
          nice := ((init_thread s newId priority).threads
            (init_thread s newId priority).cur).nice })) newId).cur = s.cur := by
    rw [thread_unblock_cur, updThread_cur, init_thread_cur]
  have hm : (thread_unblock (updThread (init_thread s newId priority) newId
      (fun t => { t with
          recent_cpu := ((init_thread s newId priority).threads
            (init_thread s newId priority).cur).recent_cpu
          nice := ((init_thread s newId priority).threads
            (init_thread s newId priority).cur).nice })) newId).thread_mlfqs =
      s.thread_mlfqs := by
    rw [thread_unblock_mlfqs, updThread_mlfqs, init_thread_mlfqs]
  have hth : (thread_unblock (updThread (init_thread s newId priority) newId
      (fun t => { t with
          recent_cpu := ((init_thread s newId priority).threads
            (init_thread s newId priority).cur).recent_cpu
          nice := ((init_thread s newId priority).threads
            (init_thread s newId priority).cur).nice })) newId).threads s.cur =
      s.threads s.cur := by
    rw [thread_unblock_threads_ne _ _ _ hne2, updThread_threads_ne _ _ _ _ hne2,
        init_thread_threads_ne _ _ _ _ hne2]
  constructor
  · intro hc
    show ((if priority > _ ∧ _ = false then thread_yield _ else _).threads s.cur).status = _
    rw [if_pos]
    · exact thread_yield_status_at _ s.cur (by rw [hcur])
    · refine ⟨?_, ?_⟩
      · rw [hcur, hth]; exact hc.1
      · rw [hm]; exact hc.2
  · intro hc
    show ((if priority > _ ∧ _ = false then thread_yield _ else _).threads s.cur).status = _
    rw [if_neg]
    · rw [hth]; exact hrun
    · intro hcc
      exact hc ⟨by rw [hcur, hth] at hcc; exact hcc.1, by rw [hm] at hcc; exact hcc.2⟩

/-- Witness for the amended claim C1: in c1State, creating a thread of base
priority 20 exceeds the base priority 10 of the creator under the priority
policy, and the creator indeed ends READY. -/
theorem thread_create_yield_on_base_priority_witness :
    ((thread_create c1State 1 20).threads c1State.cur).status = ThreadStatus.ready :=
  (thread_create_yield_on_base_priority c1State 1 20 (by decide) (by decide)).1
    (by decide)

/-! Lemmas about the MLFQ queue array and ordered insertion. -/

theorem queue_at_queue_set_cases (qs : List (List TId)) (p j : Int) (l : List TId) :
    queue_at (queue_set qs p l) j = l ∨ queue_at (queue_set qs p l) j = queue_at qs j := by
  unfold queue_at queue_set
  simp only [List.getD_eq_getElem?_getD, List.getElem?_set]
  by_cases h : p.toNat = j.toNat
  · by_cases hlt : p.toNat < qs.length
    · left; rw [if_pos h, if_pos hlt]; rfl
    · right
      rw [if_pos h, if_neg hlt, ← h, List.getElem?_eq_none (by omega)]
  · right; rw [if_neg h]

theorem queue_at_set_self (qs : List (List TId)) (p : Int) (l : List TId)
    (hlt : p.toNat < qs.length) :
    queue_at (queue_set qs p l) p = l := by
  unfold queue_at queue_set
  simp [List.getD_eq_getElem?_getD, List.getElem?_set_self hlt]

theorem queue_at_set_ne (qs : List (List TId)) (p j : Int) (l : List TId)
    (h : p.toNat ≠ j.toNat) :
    queue_at (queue_set qs p l) j = queue_at qs j := by
  unfold queue_at queue_set
  simp [List.getD_eq_getElem?_getD, List.getElem?_set_ne h]

@[simp] theorem queue_set_length (qs : List (List TId)) (p : Int) (l : List TId) :
    (queue_set qs p l).length = qs.length := by
  unfold queue_set; simp

theorem mem_list_insert_ordered {α : Type} (less : α → α → Bool) (x : α) (l : List α)
    (y : α) (hy : y ∈ list_insert_ordered less x l) : y = x ∨ y ∈ l := by
  induction l with
  | nil =>
    simp [list_insert_ordered] at hy
    exact Or.inl hy
  | cons z l ih =>
    simp only [list_insert_ordered] at hy
    by_cases h : less x z
    · rw [if_pos h] at hy
      rcases List.mem_cons.mp hy with h1 | h1
      · exact Or.inl h1
      · exact Or.inr h1
    · rw [if_neg h] at hy
      rcases List.mem_cons.mp hy with h1 | h1
      · exact Or.inr (by simp [h1])
      · rcases ih h1 with h2 | h2
        · exact Or.inl h2
        · exact Or.inr (List.mem_cons_of_mem z h2)

theorem mlfq_pop_from_mem (s : KState) (is_ : List Int) (id : TId) (s' : KState)
    (h : mlfq_pop_from s is_ = some (id, s')) :
    ∃ i ∈ is_, id ∈ queue_at s.mlfq_queues i := by
  induction is_ with
  | nil => simp [mlfq_pop_from] at h
  | cons i rest ih =>
    rw [mlfq_pop_from] at h
    rcases hq : queue_at s.mlfq_queues i with _ | ⟨id0, q⟩
    · rw [hq] at h
      rcases ih h with ⟨i0, hi0, hmem⟩
      exact ⟨i0, List.mem_cons_of_mem i hi0, hmem⟩
    · rw [hq] at h
      simp only [Option.some.injEq, Prod.mk.injEq] at h
      refine ⟨i, List.mem_cons_self i rest, ?_⟩
      rw [hq, ← h.1]
      exact List.mem_cons_self id0 q

/-! Claim C7: next_thread_to_run and the idle thread. -/

/-- Claim C7: next_thread_to_run returns the idle thread exactly when the ready
structure of the active policy is empty, that is, the ready list is empty under
the priority policy and the MLFQ size counter is 0 under MLFQ, provided the idle
thread sits in no ready structure; and neither thread_yield nor
thread_sleep_until ever inserts the idle thread into a ready structure or the
sleeping list. -/
theorem next_thread_to_run_idle_iff_empty (s : KState)
    (hr : s.idle_thread ∉ s.ready_list)
    (hq : ∀ i : Int, s.idle_thread ∉ queue_at s.mlfq_queues i)
    (hs : s.idle_thread ∉ s.blocked_sleeping_list) :
    (s.thread_mlfqs = false →
        ((next_thread_to_run s).map Prod.fst = some s.idle_thread ↔
          s.ready_list = [])) ∧
    (s.thread_mlfqs = true →
        ((next_thread_to_run s).map Prod.fst = some s.idle_thread ↔
          s.mlfq_size = 0)) ∧
    (∀ tks : Int,
        s.idle_thread ∉ (thread_sleep_until s tks).blocked_sleeping_list) ∧
    (s.idle_thread ∉ (thread_yield s).ready_list) ∧
    (∀ i : Int, s.idle_thread ∉ queue_at (thread_yield s).mlfq_queues i) := by
  have hyieldq : ∀ i : Int, s.idle_thread ∉ queue_at (thread_yield s).mlfq_queues i := by
    intro i
    simp only [thread_yield]
    by_cases hc : s.cur ≠ s.idle_thread
    · rw [if_pos hc]
      by_cases hm : s.thread_mlfqs = true
      · rw [if_pos hm]
        show s.idle_thread ∉ queue_at (updThread (mlfq_add_thread s s.cur) _ _).mlfq_queues i
        simp only [mlfq_add_thread, updThread]
        intro hmem
        rcases queue_at_queue_set_cases s.mlfq_queues
            (mlfq_get_priority (s.threads s.cur)) i
            (queue_at s.mlfq_queues (mlfq_get_priority (s.threads s.cur)) ++ [s.cur])
          with hcase | hcase
        · rw [hcase] at hmem
          rcases List.mem_append.mp hmem with h | h
          · exact hq _ h
          · simp only [List.mem_singleton] at h
            exact hc h.symm
        · rw [hcase] at hmem
          exact hq i hmem
      · rw [if_neg hm]
        show s.idle_thread ∉ queue_at (updThread _ _ _).mlfq_queues i
        simp only [updThread]
        exact hq i
    · rw [if_neg hc]
      show s.idle_thread ∉ queue_at (updThread s _ _).mlfq_queues i
      simp only [updThread]
      exact hq i
  refine ⟨?_, ?_, ?_, ?_, hyieldq⟩
  · intro hm
    constructor
    · intro h
      rcases hl : s.ready_list with _ | ⟨id0, rest⟩
      · rfl
      · exfalso
        rw [next_thread_to_run, hm] at h
        simp only [Bool.false_eq_true, if_false] at h
        rw [hl] at h
        have h2 : id0 = s.idle_thread := by simpa using h
        rw [hl] at hr
        rw [← h2] at hr
        exact hr (List.mem_cons_self id0 rest)
    · intro h
      rw [next_thread_to_run, hm]
      simp only [Bool.false_eq_true, if_false]
      rw [h]
      rfl
  · intro hm
    constructor
    · intro h
      by_contra hsz
      rw [next_thread_to_run, hm] at h
      simp only [if_true, if_neg hsz] at h
      rcases hp : mlfq_pop_from s mlfq_scan_order with _ | ⟨id, s1⟩
      · rw [hp] at h; simp at h
      · rw [hp] at h
        have h2 : id = s.idle_thread := by simpa using h
        rcases mlfq_pop_from_mem s mlfq_scan_order id s1 hp with ⟨i, _, hmem⟩
        rw [h2] at hmem
        exact hq i hmem
    · intro h
      rw [next_thread_to_run, hm, if_pos rfl, if_pos h]
      rfl
  · intro tks
    simp only [thread_sleep_until]
    by_cases hc : s.cur ≠ (updThread s s.cur (fun t =>
        { t with
            status := ThreadStatus.blocked
            blocked := { t.blocked with
                          reason := BlockReason.sleeping
                          sleeping_wakeup_time := tks } })).idle_thread
    · rw [if_pos hc]
      intro hmem
      simp only [updThread_bsl] at hmem
      rcases mem_list_insert_ordered _ _ _ _ hmem with h | h
      · simp only [updThread] at hc h
        exact hc h.symm
      · exact hs h
    · rw [if_neg hc]
      simp only [updThread_bsl]
      exact hs
  · simp only [thread_yield]
    by_cases hc : s.cur ≠ s.idle_thread
    · rw [if_pos hc]
      by_cases hm : s.thread_mlfqs = true
      · rw [if_pos hm]
        show s.idle_thread ∉ (updThread (mlfq_add_thread s s.cur) _ _).ready_list
        simp only [updThread_ready, mlfq_add_thread]
        exact hr
      · rw [if_neg hm]
        show s.idle_thread ∉ (updThread _ _ _).ready_list
        simp only [updThread_ready]
        intro hmem
        rcases mem_list_insert_ordered _ _ _ _ hmem with h | h
        · exact hc h.symm
        · exact hr h
    · rw [if_neg hc]
      show s.idle_thread ∉ (updThread s _ _).ready_list
      simp only [updThread_ready]
      exact hr

/-- Witness for claim C7: in the quiescent baseState the ready list is empty
under the priority policy and the scheduler selects the idle thread. -/
theorem next_thread_to_run_idle_iff_empty_witness :
    (next_thread_to_run baseState).map Prod.fst = some baseState.idle_thread :=
  ((next_thread_to_run_idle_iff_empty baseState (by decide)
      (fun i => by
        intro hmem
        unfold baseState queue_at at hmem
        rw [List.getD_eq_getElem?_getD] at hmem
        rcases h : (List.replicate MLFQ_QUEUE_SIZE ([] : List TId))[i.toNat]? with _ | l
        · rw [h] at hmem; simp at hmem
        · rw [h] at hmem
          have := List.getElem?_mem h
          rw [List.eq_of_mem_replicate this] at hmem
          simp at hmem)
      (by decide)).1 rfl).mpr rfl

/-- Ordered insertion preserves pairwise sortedness, for any comparator that
agrees with a transitive relation in the sense of hA and hB. -/
theorem list_insert_ordered_pairwise {α : Type} (less : α → α → Bool) (R : α → α → Prop)
    (hA : ∀ a b, less a b = true → R a b)
    (hB : ∀ a b, less a b = false → R b a)
    (hT : ∀ a b c, R a b → R b c → R a c)
    (x : α) (l : List α) (h : l.Pairwise R) :
    (list_insert_ordered less x l).Pairwise R := by
  induction l with
  | nil => simp [list_insert_ordered]
  | cons y ys ih =>
    rcases List.pairwise_cons.mp h with ⟨hy, hys⟩
    simp only [list_insert_ordered]
    by_cases hxy : less x y = true
    · rw [if_pos hxy]
      refine List.pairwise_cons.mpr ⟨?_, h⟩
      intro z hz
      rcases List.mem_cons.mp hz with h1 | h1
      · subst h1; exact hA _ _ hxy
      · exact hT _ _ _ (hA _ _ hxy) (hy z h1)
    · have hxy2 : less x y = false := by revert hxy; cases less x y <;> simp
      rw [if_neg (by simp [hxy2])]
      refine List.pairwise_cons.mpr ⟨?_, ih hys⟩
      intro z hz
      rcases mem_list_insert_ordered less x ys z hz with h1 | h1
      · subst h1; exact hB _ _ hxy2
      · exact hy z h1

/-! Claim C8: thread_unblock. -/

/-- Claim C8: for a BLOCKED thread t, thread_unblock inserts t into the ready
structure of the active policy (the effective-priority-ordered ready list under
the priority policy, the MLFQ queue of the priority computed from recent_cpu and
nice under MLFQ), sets its status to READY and clears its blocked reason to
UNKNOWN, while the running thread keeps running, no preemption is requested, the
other ready structure stays untouched, every other thread record is unchanged,
every remaining field of t is unchanged, and all other scheduler state is
unchanged.  Under the priority policy a ready list sorted by descending
effective priority stays sorted. -/
theorem thread_unblock_spec (s : KState) (id : TId)
    (hb : (s.threads id).status = ThreadStatus.blocked)
    (hcur : (s.threads s.cur).status = ThreadStatus.running) :
    ((thread_unblock s id).threads id).status = ThreadStatus.ready ∧
    ((thread_unblock s id).threads id).blocked.reason = BlockReason.unknown ∧
    ((thread_unblock s id).threads id).priority = (s.threads id).priority ∧
    ((thread_unblock s id).threads id).donated_priority =
      (s.threads id).donated_priority ∧
    ((thread_unblock s id).threads id).nice = (s.threads id).nice ∧
    ((thread_unblock s id).threads id).recent_cpu = (s.threads id).recent_cpu ∧
    ((thread_unblock s id).threads id).owned_locks = (s.threads id).owned_locks ∧
    ((thread_unblock s id).threads id).blocked.sleeping_wakeup_time =
      (s.threads id).blocked.sleeping_wakeup_time ∧
    ((thread_unblock s id).threads id).blocked.lock = (s.threads id).blocked.lock ∧
    (∀ j, j ≠ id → (thread_unblock s id).threads j = s.threads j) ∧
    (thread_unblock s id).cur = s.cur ∧
    ((thread_unblock s id).threads s.cur).status = ThreadStatus.running ∧
    (thread_unblock s id).yield_on_return = s.yield_on_return ∧
    (thread_unblock s id).blocked_sleeping_list = s.blocked_sleeping_list ∧
    (thread_unblock s id).all_list = s.all_list ∧
    (thread_unblock s id).locks = s.locks ∧
    (thread_unblock s id).load_avg = s.load_avg ∧
    (thread_unblock s id).ticks = s.ticks ∧
    (thread_unblock s id).thread_ticks = s.thread_ticks ∧
    (thread_unblock s id).idle_thread = s.idle_thread ∧
    (s.thread_mlfqs = false →
      (thread_unblock s id).ready_list =
        list_insert_ordered (priority_thread_less_func s) id s.ready_list ∧
      (thread_unblock s id).mlfq_queues = s.mlfq_queues ∧
      (thread_unblock s id).mlfq_size = s.mlfq_size) ∧
    (s.thread_mlfqs = true →
      (thread_unblock s id).ready_list = s.ready_list ∧
      (thread_unblock s id).mlfq_size = s.mlfq_size + 1 ∧
      (thread_unblock s id).mlfq_queues =
        queue_set s.mlfq_queues (mlfq_get_priority (s.threads id))
          (queue_at s.mlfq_queues (mlfq_get_priority (s.threads id)) ++ [id])) ∧
    (s.thread_mlfqs = false →
      s.ready_list.Pairwise (fun a b =>
        thread_get_effective_priority (s.threads b) ≤
          thread_get_effective_priority (s.threads a)) →
      (thread_unblock s id).ready_list.Pairwise (fun a b =>
        thread_get_effective_priority (s.threads b) ≤
          thread_get_effective_priority (s.threads a))) := by
  have hne : id ≠ s.cur := by
    intro h
    rw [h, hcur] at hb
    cases hb
  refine ⟨?_, ?_, ?_, ?_, ?_, ?_, ?_, ?_, ?_, ?_,
          thread_unblock_cur s id, ?_, thread_unblock_yor s id, thread_unblock_bsl s id,
          thread_unblock_all_list s id, thread_unblock_locks s id,
          thread_unblock_load_avg s id, thread_unblock_ticks s id,
          thread_unblock_thread_ticks s id, thread_unblock_idle s id, ?_, ?_, ?_⟩
  · rw [thread_unblock_threads_self]
  · rw [thread_unblock_threads_self]
  · rw [thread_unblock_threads_self]
  · rw [thread_unblock_threads_self]
  · rw [thread_unblock_threads_self]
  · rw [thread_unblock_threads_self]
  · rw [thread_unblock_threads_self]
  · rw [thread_unblock_threads_self]
  · rw [thread_unblock_threads_self]
  · exact fun j hj => thread_unblock_threads_ne s id j hj
  · rw [thread_unblock_threads_ne s id s.cur (Ne.symm hne)]
    exact hcur
  · intro hm
    refine ⟨?_, ?_, ?_⟩ <;>
      simp [thread_unblock, mlfq_add_thread, updThread, hm]
  · intro hm
    refine ⟨?_, ?_, ?_⟩ <;>
      simp [thread_unblock, mlfq_add_thread, updThread, hm]
  · intro hm hsorted
    have hready : (thread_unblock s id).ready_list =
        list_insert_ordered (priority_thread_less_func s) id s.ready_list := by
      simp [thread_unblock, mlfq_add_thread, updThread, hm]
    rw [hready]
    refine list_insert_ordered_pairwise (priority_thread_less_func s)
      (fun a b => thread_get_effective_priority (s.threads b) ≤
        thread_get_effective_priority (s.threads a)) ?_ ?_ ?_ id s.ready_list hsorted
    · intro a b h
      simp only [priority_thread_less_func, decide_eq_true_eq] at h
      omega
    · intro a b h
      simp only [priority_thread_less_func, decide_eq_false_iff_not] at h
      omega
    · intro a b c h1 h2
      omega

/-- Witness for claim C8: unblocking the blocked thread 3 in c8State makes it
READY while thread 0 keeps running. -/
theorem thread_unblock_spec_witness :
    ((thread_unblock c8State 3).threads 3).status = ThreadStatus.ready ∧
    ((thread_unblock c8State 3).threads c8State.cur).status = ThreadStatus.running :=
  ⟨(thread_unblock_spec c8State 3 (by decide) (by decide)).1,
   (thread_unblock_spec c8State 3 (by decide) (by decide)).2.2.2.2.2.2.2.2.2.2.2.1⟩

/-! Claim C5: the wake sweep and the sleeping list. -/

theorem KState_set_bsl_self (s : KState) (l : List TId)
    (h : s.blocked_sleeping_list = l) :
    { s with blocked_sleeping_list := l } = s := by
  cases s
  cases h
  rfl

theorem thread_unblock_set_bsl (s : KState) (id : TId) (X : List TId) :
    thread_unblock { s with blocked_sleeping_list := X } id =
      { thread_unblock s id with blocked_sleeping_list := X } := by
  by_cases h : s.thread_mlfqs = true <;>
    · simp [thread_unblock, mlfq_add_thread, updThread, h]
      try rfl

theorem foldl_unblock_bsl (l : List TId) : ∀ s : KState,
    (l.foldl thread_unblock s).blocked_sleeping_list = s.blocked_sleeping_list := by
  induction l with
  | nil => intro s; rfl
  | cons a l ih => intro s; rw [List.foldl_cons, ih, thread_unblock_bsl]

theorem takeWhile_filter_of_key_sorted (key : TId → Int) (c : Int) (l : List TId)
    (h : l.Pairwise (fun a b => key a ≤ key b)) :
    l.takeWhile (fun id => decide (key id ≤ c)) =
      l.filter (fun id => decide (key id ≤ c)) ∧
    l.dropWhile (fun id => decide (key id ≤ c)) =
      l.filter (fun id => decide (c < key id)) := by
  induction l with
  | nil => exact ⟨rfl, rfl⟩
  | cons a l ih =>
    rcases List.pairwise_cons.mp h with ⟨ha, hl⟩
    rcases ih hl with ⟨iht, ihd⟩
    by_cases hpa : key a ≤ c
    · constructor
      · rw [List.takeWhile_cons_of_pos (by simp [hpa]),
            List.filter_cons_of_pos (by simp [hpa]), iht]
      · rw [List.dropWhile_cons_of_pos (by simp [hpa]),
            List.filter_cons_of_neg (by simp; omega), ihd]
    · constructor
      · rw [List.takeWhile_cons_of_neg (by simp [hpa]),
            List.filter_cons_of_neg (by simp [hpa])]
        symm
        rw [List.filter_eq_nil_iff]
        intro b hb
        have hab := ha b hb
        simp only [decide_eq_true_eq]
        omega
      · rw [List.dropWhile_cons_of_neg (by simp [hpa]),
            List.filter_cons_of_pos (by simp; omega)]
        congr 1
        symm
        rw [List.filter_eq_self]
        intro b hb
        have hab := ha b hb
        simp only [decide_eq_true_eq]
        omega

theorem try_wake_go_spec : ∀ (fuel : Nat) (s : KState),
    s.blocked_sleeping_list.length ≤ fuel →
    try_wake_go fuel s =
      (s.blocked_sleeping_list.takeWhile
          (fun id => decide ((s.threads id).blocked.sleeping_wakeup_time ≤ s.ticks))).foldl
        thread_unblock
        { s with blocked_sleeping_list :=
                   s.blocked_sleeping_list.dropWhile
                     (fun id => decide ((s.threads id).blocked.sleeping_wakeup_time ≤
                       s.ticks)) } := by
  intro fuel
  induction fuel with
  | zero =>
    intro s hf
    have hl : s.blocked_sleeping_list = [] := List.length_eq_zero.mp (Nat.le_zero.mp hf)
    rw [try_wake_go, hl]
    simp only [List.takeWhile_nil, List.dropWhile_nil, List.foldl_nil]
    exact (KState_set_bsl_self s [] hl).symm
  | succ fuel ih =>
    intro s hf
    rcases hl : s.blocked_sleeping_list with _ | ⟨id, rest⟩
    · rw [try_wake_go, hl]
      simp only [List.takeWhile_nil, List.dropWhile_nil, List.foldl_nil]
      exact (KState_set_bsl_self s [] hl).symm
    · simp only [try_wake_go, hl]
      by_cases hw : (s.threads id).blocked.sleeping_wakeup_time > s.ticks
      · rw [if_pos hw]
        have hdec : decide ((s.threads id).blocked.sleeping_wakeup_time ≤
            s.ticks) = false := by simp; omega
        rw [List.takeWhile_cons, List.dropWhile_cons]
        simp only [hdec, Bool.false_eq_true, if_false, List.foldl_nil]
        exact (KState_set_bsl_self s (id :: rest) hl).symm
      · rw [if_neg hw]
        have hdec : decide ((s.threads id).blocked.sleeping_wakeup_time ≤
            s.ticks) = true := by simp; omega
        have hrest : (thread_unblock { s with blocked_sleeping_list := rest }
            id).blocked_sleeping_list = rest := by
          rw [thread_unblock_bsl]
        have hlen : (thread_unblock { s with blocked_sleeping_list := rest }
            id).blocked_sleeping_list.length ≤ fuel := by
          rw [hrest]
          have : (id :: rest).length ≤ fuel + 1 := by rw [← hl]; exact hf
          simp only [List.length_cons] at this
          omega
        rw [ih _ hlen]
        have hkey : ∀ j : TId,
            ((thread_unblock { s with blocked_sleeping_list := rest } id).threads
              j).blocked.sleeping_wakeup_time =
            (s.threads j).blocked.sleeping_wakeup_time := by
          intro j
          rw [thread_unblock_threads_wakeup]
        have hticks : (thread_unblock { s with blocked_sleeping_list := rest }
            id).ticks = s.ticks := by
          rw [thread_unblock_ticks]
        have hfun : (fun i => decide (((thread_unblock
              { s with blocked_sleeping_list := rest } id).threads
                i).blocked.sleeping_wakeup_time ≤
              (thread_unblock { s with blocked_sleeping_list := rest } id).ticks)) =
            (fun i => decide ((s.threads i).blocked.sleeping_wakeup_time ≤ s.ticks)) := by
          funext i
          rw [hkey, hticks]
        rw [hrest, hfun]
        rw [List.takeWhile_cons, List.dropWhile_cons]
        simp only [hdec, if_true, List.foldl_cons]
        congr 1
        rw [← thread_unblock_set_bsl]

/-- Claim C5: the wake sweep equals, as a state transformer, unblocking in list
order exactly the longest prefix of the sleeping list whose wake up times are
not in the future, with the remaining suffix as the new sleeping list; when the
sleeping list is sorted by ascending wake up time that prefix is exactly the set
of threads whose wake up time is at most the clock, the remaining list is
exactly the threads with wake up time in the future, and thread_sleep_until
keeps the sleeping list sorted by inserting in ascending wake up order. -/
theorem try_wake_up_sleeping_threads_spec (s : KState)
    (hsort : s.blocked_sleeping_list.Pairwise
      (fun a b => (s.threads a).blocked.sleeping_wakeup_time ≤
        (s.threads b).blocked.sleeping_wakeup_time)) :
    (try_wake_up_sleeping_threads s =
      (s.blocked_sleeping_list.takeWhile
          (fun id => decide ((s.threads id).blocked.sleeping_wakeup_time ≤
            s.ticks))).foldl
        thread_unblock
        { s with blocked_sleeping_list :=
                   s.blocked_sleeping_list.dropWhile
                     (fun id => decide ((s.threads id).blocked.sleeping_wakeup_time ≤
                       s.ticks)) }) ∧
    (s.blocked_sleeping_list.takeWhile
        (fun id => decide ((s.threads id).blocked.sleeping_wakeup_time ≤ s.ticks)) =
      s.blocked_sleeping_list.filter
        (fun id => decide ((s.threads id).blocked.sleeping_wakeup_time ≤ s.ticks))) ∧
    ((try_wake_up_sleeping_threads s).blocked_sleeping_list =
      s.blocked_sleeping_list.filter
        (fun id => decide (s.ticks < (s.threads id).blocked.sleeping_wakeup_time))) ∧
    (∀ tks : Int, s.cur ∉ s.blocked_sleeping_list →
      (thread_sleep_until s tks).blocked_sleeping_list.Pairwise
        (fun a b =>
          ((thread_sleep_until s tks).threads a).blocked.sleeping_wakeup_time ≤
          ((thread_sleep_until s tks).threads b).blocked.sleeping_wakeup_time)) := by
  have hmain := try_wake_go_spec s.blocked_sleeping_list.length s (le_refl _)
  have htd := takeWhile_filter_of_key_sorted
    (fun id => (s.threads id).blocked.sleeping_wakeup_time) s.ticks
    s.blocked_sleeping_list hsort
  refine ⟨hmain, htd.1, ?_, ?_⟩
  · show (try_wake_go s.blocked_sleeping_list.length s).blocked_sleeping_list = _
    rw [hmain, foldl_unblock_bsl]
    exact htd.2
  · intro tks hcur
    simp only [thread_sleep_until]
    have hth : ∀ j : TId, j ≠ s.cur →
        ((updThread s s.cur (fun t =>
          { t with
              status := ThreadStatus.blocked
              blocked := { t.blocked with
                            reason := BlockReason.sleeping
                            sleeping_wakeup_time := tks } })).threads j) = s.threads j :=
      fun j hj => updThread_threads_ne s s.cur _ j hj
    by_cases hc : s.cur ≠ (updThread s s.cur (fun t =>
        { t with
            status := ThreadStatus.blocked
            blocked := { t.blocked with
                          reason := BlockReason.sleeping
                          sleeping_wakeup_time := tks } })).idle_thread
    · rw [if_pos hc]
      show (list_insert_ordered _ s.cur
        (updThread _ _ _).blocked_sleeping_list).Pairwise _
      simp only [updThread_bsl]
      refine list_insert_ordered_pairwise _ _ ?_ ?_ ?_ s.cur s.blocked_sleeping_list ?_
      · intro a b h
        simp only [sleeping_thread_less_func, decide_eq_true_eq] at h
        omega
      · intro a b h
        simp only [sleeping_thread_less_func, decide_eq_false_iff_not] at h
        omega
      · intro a b c h1 h2
        omega
      · refine hsort.imp_of_mem ?_
        intro a b ha hb hab
        rw [hth a (fun h => hcur (h ▸ ha)), hth b (fun h => hcur (h ▸ hb))]
        exact hab
    · rw [if_neg hc]
      show ((updThread _ _ _).blocked_sleeping_list).Pairwise _
      simp only [updThread_bsl]
      refine hsort.imp_of_mem ?_
      intro a b ha hb hab
      rw [hth a (fun h => hcur (h ▸ ha)), hth b (fun h => hcur (h ▸ hb))]
      exact hab

/-- Witness for claim C5: in c5State, with the clock at tick 10, the sweep
leaves exactly thread 2 (waking at 20) asleep. -/
theorem try_wake_up_sleeping_threads_spec_witness :
    (try_wake_up_sleeping_threads c5State).blocked_sleeping_list =
      c5State.blocked_sleeping_list.filter
        (fun id => decide (c5State.ticks <
          (c5State.threads id).blocked.sleeping_wakeup_time)) :=
  (try_wake_up_sleeping_threads_spec c5State (by decide)).2.2.1

/-! Claim C3: the priority donation walk. -/

theorem thread_receive_locks (s : KState) (id : TId) (g : Int) :
    (thread_receive_donated_priority s id g).locks = s.locks := by
  simp only [thread_receive_donated_priority, updThread]
  split_ifs <;> rfl

theorem thread_receive_threads_fields (s : KState) (id : TId) (g : Int) (j : TId) :
    ((thread_receive_donated_priority s id g).threads j).status = (s.threads j).status ∧
    ((thread_receive_donated_priority s id g).threads j).blocked = (s.threads j).blocked := by
  simp only [thread_receive_donated_priority, updThread]
  split_ifs <;> by_cases hj : j = id <;> simp [hj]

theorem thread_receive_threads_ne (s : KState) (id : TId) (g : Int) (j : TId)
    (hj : j ≠ id) :
    (thread_receive_donated_priority s id g).threads j = s.threads j := by
  simp only [thread_receive_donated_priority, updThread]
  split_ifs <;> simp [hj]

theorem thread_receive_donated_self (s : KState) (id : TId) (g : Int) :
    ((thread_receive_donated_priority s id g).threads id).donated_priority =
      max ((s.threads id).donated_priority) g := by
  simp only [thread_receive_donated_priority, updThread]
  split_ifs with h1 h2 <;> simp <;> omega

theorem thread_receive_donated_mono (s : KState) (id : TId) (g : Int) (j : TId) :
    (s.threads j).donated_priority ≤
      ((thread_receive_donated_priority s id g).threads j).donated_priority := by
  by_cases hj : j = id
  · subst hj
    rw [thread_receive_donated_self]
    omega
  · rw [thread_receive_threads_ne s id g j hj]

theorem donate_chain_congr (s s2 : KState)
    (hst : ∀ j, (s2.threads j).status = (s.threads j).status)
    (hbl : ∀ j, (s2.threads j).blocked = (s.threads j).blocked)
    (hlk : s2.locks = s.locks) :
    ∀ (fuel : Nat) (cur : TId), donate_chain s2 fuel cur = donate_chain s fuel cur := by
  intro fuel
  induction fuel with
  | zero => intro cur; rfl
  | succ fuel ih =>
    intro cur
    simp only [donate_chain, hst, hbl, hlk]
    by_cases h : (s.threads cur).status = ThreadStatus.blocked ∧
        (s.threads cur).blocked.reason = BlockReason.waiting_on_lock
    · rw [if_pos h, if_pos h, ih]
    · rw [if_neg h, if_neg h]

theorem donate_chain_head_mem (s : KState) (fuel : Nat) (cur : TId) :
    cur ∈ donate_chain s fuel cur := by
  cases fuel with
  | zero => simp [donate_chain]
  | succ fuel =>
    rw [donate_chain]
    split_ifs <;> simp

theorem donate_chain_ne_nil (s : KState) (fuel : Nat) (cur : TId) :
    donate_chain s fuel cur ≠ [] := by
  cases fuel with
  | zero => simp [donate_chain]
  | succ fuel =>
    rw [donate_chain]
    split_ifs <;> simp

theorem getLastD_congr {α : Type} (l : List α) (d1 d2 : α) (h : l ≠ []) :
    l.getLastD d1 = l.getLastD d2 := by
  cases l with
  | nil => cases h rfl
  | cons a l => rw [List.getLastD_cons, List.getLastD_cons]

theorem donate_go_mono (gift : Int) : ∀ (fuel : Nat) (s : KState) (cur : TId) (s' : KState),
    donate_go gift fuel s cur = some s' →
    ∀ j, (s.threads j).donated_priority ≤ (s'.threads j).donated_priority := by
  intro fuel
  induction fuel with
  | zero =>
    intro s cur s' h j
    rw [donate_go] at h
    split_ifs at h
    rw [Option.some_inj] at h
    rw [h]
  | succ fuel ih =>
    intro s cur s' h j
    rw [donate_go] at h
    split_ifs at h with hc
    · exact le_trans (thread_receive_donated_mono s _ gift j) (ih _ _ _ h j)
    · rw [Option.some_inj] at h
      subst h
      exact le_refl _

theorem donate_go_fields (gift : Int) : ∀ (fuel : Nat) (s : KState) (cur : TId) (s' : KState),
    donate_go gift fuel s cur = some s' →
    (∀ j, (s'.threads j).status = (s.threads j).status) ∧
    (∀ j, (s'.threads j).blocked = (s.threads j).blocked) ∧
    s'.locks = s.locks := by
  intro fuel
  induction fuel with
  | zero =>
    intro s cur s' h
    rw [donate_go] at h
    split_ifs at h
    rw [Option.some_inj] at h
    rw [← h]
    exact ⟨fun j => rfl, fun j => rfl, rfl⟩
  | succ fuel ih =>
    intro s cur s' h
    rw [donate_go] at h
    split_ifs at h with hc
    · rcases ih _ _ _ h with ⟨h1, h2, h3⟩
      refine ⟨?_, ?_, ?_⟩
      · intro j
        rw [h1 j, (thread_receive_threads_fields s _ gift j).1]
      · intro j
        rw [h2 j, (thread_receive_threads_fields s _ gift j).2]
      · rw [h3, thread_receive_locks]
    · rw [Option.some_inj] at h
      subst h
      exact ⟨fun j => rfl, fun j => rfl, rfl⟩

theorem donate_go_chain_ge (gift : Int) : ∀ (fuel : Nat) (s : KState) (cur : TId) (s' : KState),
    donate_go gift fuel s cur = some s' →
    gift ≤ (s.threads cur).donated_priority →
    ∀ id ∈ donate_chain s fuel cur, gift ≤ (s'.threads id).donated_priority := by
  intro fuel
  induction fuel with
  | zero =>
    intro s cur s' h hcur id hid
    rw [donate_go] at h
    split_ifs at h
    rw [Option.some_inj] at h
    rw [donate_chain] at hid
    simp only [List.mem_singleton] at hid
    subst hid
    rw [← h]
    exact hcur
  | succ fuel ih =>
    intro s cur s' h hcur id hid
    rw [donate_go] at h
    rw [donate_chain] at hid
    split_ifs at h with hc
    · rw [if_pos hc] at hid
      have hfields := thread_receive_threads_fields s
        ((s.locks (s.threads cur).blocked.lock).holder) gift
      have hchain : donate_chain
          (thread_receive_donated_priority s
            ((s.locks (s.threads cur).blocked.lock).holder) gift) fuel
          ((s.locks (s.threads cur).blocked.lock).holder) =
          donate_chain s fuel ((s.locks (s.threads cur).blocked.lock).holder) :=
        donate_chain_congr s _
          (fun j => (thread_receive_threads_fields s _ gift j).1)
          (fun j => (thread_receive_threads_fields s _ gift j).2)
          (thread_receive_locks s _ gift) fuel _
      rcases List.mem_cons.mp hid with rfl | hid2
      · refine le_trans (le_trans hcur (thread_receive_donated_mono s _ gift id))
          (donate_go_mono gift fuel _ _ s' h id)
      · refine ih _ _ s' h ?_ id (hchain ▸ hid2)
        rw [thread_receive_donated_self]
        omega
    · rw [if_neg hc] at hid
      simp only [List.mem_singleton] at hid
      subst hid
      rw [Option.some_inj] at h
      subst h
      exact hcur

theorem donate_go_frame (gift : Int) : ∀ (fuel : Nat) (s : KState) (cur : TId) (s' : KState),
    donate_go gift fuel s cur = some s' →
    ∀ j, j ∉ donate_chain s fuel cur → s'.threads j = s.threads j := by
  intro fuel
  induction fuel with
  | zero =>
    intro s cur s' h j hj
    rw [donate_go] at h
    split_ifs at h
    rw [Option.some_inj] at h
    rw [← h]
  | succ fuel ih =>
    intro s cur s' h j hj
    rw [donate_go] at h
    rw [donate_chain] at hj
    split_ifs at h with hc
    · rw [if_pos hc] at hj
      have hchain : donate_chain
          (thread_receive_donated_priority s
            ((s.locks (s.threads cur).blocked.lock).holder) gift) fuel
          ((s.locks (s.threads cur).blocked.lock).holder) =
          donate_chain s fuel ((s.locks (s.threads cur).blocked.lock).holder) :=
        donate_chain_congr s _
          (fun j => (thread_receive_threads_fields s _ gift j).1)
          (fun j => (thread_receive_threads_fields s _ gift j).2)
          (thread_receive_locks s _ gift) fuel _
      have hj1 : j ≠ cur := fun hh => hj (hh ▸ List.mem_cons_self cur _)
      have hj2 : j ∉ donate_chain s fuel ((s.locks (s.threads cur).blocked.lock).holder) :=
        fun hh => hj (List.mem_cons_of_mem cur hh)
      have hjn : j ≠ (s.locks (s.threads cur).blocked.lock).holder := by
        intro hh
        exact hj2 (hh ▸ donate_chain_head_mem s fuel _)
      rw [ih _ _ s' h j (hchain ▸ hj2), thread_receive_threads_ne _ _ _ _ hjn]
    · rw [if_neg hc] at hj
      simp only [List.mem_singleton] at hj
      rw [Option.some_inj] at h
      subst h
      rfl

theorem donate_go_last_not_waiting (gift : Int) :
    ∀ (fuel : Nat) (s : KState) (cur : TId) (s' : KState),
    donate_go gift fuel s cur = some s' →
    ¬ thread_waiting_on_lock s ((donate_chain s fuel cur).getLastD cur) := by
  intro fuel
  induction fuel with
  | zero =>
    intro s cur s' h
    rw [donate_go] at h
    split_ifs at h with hc
    rw [donate_chain]
    show ¬ thread_waiting_on_lock s cur
    exact fun hw => hc ⟨hw.1, hw.2⟩
  | succ fuel ih =>
    intro s cur s' h
    rw [donate_go] at h
    rw [donate_chain]
    split_ifs at h with hc
    · rw [if_pos hc, List.getLastD_cons]
      have hchain : donate_chain
          (thread_receive_donated_priority s
            ((s.locks (s.threads cur).blocked.lock).holder) gift) fuel
          ((s.locks (s.threads cur).blocked.lock).holder) =
          donate_chain s fuel ((s.locks (s.threads cur).blocked.lock).holder) :=
        donate_chain_congr s _
          (fun j => (thread_receive_threads_fields s _ gift j).1)
          (fun j => (thread_receive_threads_fields s _ gift j).2)
          (thread_receive_locks s _ gift) fuel _
      have hlast := ih _ _ s' h
      rw [hchain] at hlast
      rw [getLastD_congr _ cur ((s.locks (s.threads cur).blocked.lock).holder)
        (donate_chain_ne_nil s fuel _)]
      intro hw
      refine hlast ?_
      unfold thread_waiting_on_lock at hw ⊢
      rw [(thread_receive_threads_fields s _ gift _).1,
          (thread_receive_threads_fields s _ gift _).2]
      exact hw
    · rw [if_neg hc]
      show ¬ thread_waiting_on_lock s cur
      exact fun hw => hc ⟨hw.1, hw.2⟩

/-- Claim C3: thread_donate_priority raises the donated priority of the receiver
and of every thread reached by following the blocked.lock holder links, so that
after a walk that completes (the fuel bounds the chain, none marking a walk
still unfinished) every thread on the chain has donated priority at least the
gift; threads off the chain are untouched; the walk ends at the first thread
that is not BLOCKED WAITING_ON_LOCK; and a donation that raises the priority of
a READY thread removes it from the ready list and reinserts it in
effective-priority order. -/
theorem thread_donate_priority_chain_spec (s : KState) (receiver : TId) (gift : Int)
    (fuel : Nat) (s' : KState)
    (h : thread_donate_priority s receiver gift fuel = some s') :
    (∀ id ∈ donate_chain s fuel receiver, gift ≤ (s'.threads id).donated_priority) ∧
    (∀ id, id ∉ donate_chain s fuel receiver → s'.threads id = s.threads id) ∧
    (¬ thread_waiting_on_lock s' ((donate_chain s fuel receiver).getLastD receiver)) ∧
    (∀ (s₀ : KState) (id : TId) (g : Int),
        g > (s₀.threads id).donated_priority →
        (s₀.threads id).status = ThreadStatus.ready →
        (thread_receive_donated_priority s₀ id g).ready_list =
          list_insert_ordered
            (priority_thread_less_func (updThread s₀ id
              (fun t => { t with donated_priority := g })))
            id (s₀.ready_list.erase id)) := by
  unfold thread_donate_priority at h
  have hchain : donate_chain (thread_receive_donated_priority s receiver gift)
      fuel receiver = donate_chain s fuel receiver :=
    donate_chain_congr s _
      (fun j => (thread_receive_threads_fields s receiver gift j).1)
      (fun j => (thread_receive_threads_fields s receiver gift j).2)
      (thread_receive_locks s receiver gift) fuel receiver
  refine ⟨?_, ?_, ?_, ?_⟩
  · intro id hid
    refine donate_go_chain_ge gift fuel _ receiver s' h ?_ id (hchain ▸ hid)
    rw [thread_receive_donated_self]
    omega
  · intro id hid
    have hid2 : id ≠ receiver := fun hh => hid (hh ▸ donate_chain_head_mem s fuel receiver)
    rw [donate_go_frame gift fuel _ receiver s' h id (hchain ▸ hid),
        thread_receive_threads_ne s receiver gift id hid2]
  · have hlast := donate_go_last_not_waiting gift fuel _ receiver s' h
    rw [hchain] at hlast
    rcases donate_go_fields gift fuel _ receiver s' h with ⟨h1, h2, _⟩
    unfold thread_waiting_on_lock at hlast ⊢
    intro hw
    exact hlast ⟨by rw [← h1]; exact hw.1, by rw [← h2]; exact hw.2⟩
  · intro s₀ id g hg hst
    simp only [thread_receive_donated_priority]
    rw [if_pos hg, if_pos (by rw [updThread_threads_self]; exact hst)]
    rfl

/-- Witness for claim C3: donating priority 40 to thread 0 in c3State walks the
chain 0, 1 and leaves both with donated priority at least 40. -/
theorem thread_donate_priority_chain_spec_witness :
    donate_chain c3State 2 0 = [0, 1] ∧
    (40 ≤ (((thread_donate_priority c3State 0 40 2).getD c3State).threads
      0).donated_priority) ∧
    (40 ≤ (((thread_donate_priority c3State 0 40 2).getD c3State).threads
      1).donated_priority) := by
  refine ⟨by decide, ?_, ?_⟩ <;>
  · have hs : (thread_donate_priority c3State 0 40 2).isSome = true := by decide
    rcases ho : thread_donate_priority c3State 0 40 2 with _ | s'
    · rw [ho] at hs
      simp at hs
    · have hspec := thread_donate_priority_chain_spec c3State 0 40 2 s' ho
      simp only [Option.getD_some]
      exact hspec.1 _ (by decide)

/-! Claim C4: the MLFQ recomputation pass. -/

theorem mlfq_get_priority_bounds (t : Thread) :
    0 ≤ mlfq_get_priority t ∧ mlfq_get_priority t ≤ 63 := by
  simp only [mlfq_get_priority, PRI_MAX]
  split_ifs <;> omega

theorem mlfq_get_priority_eq_clamp (t : Thread) :
    mlfq_get_priority t =
      max 0 (min PRI_MAX (PRI_MAX - fix_round (fix_div t.recent_cpu (fix_int 4)) -
        2 * t.nice)) := by
  simp only [mlfq_get_priority, PRI_MAX]
  split_ifs <;> omega

theorem mlfq_scan_go_length (thr : TId → Thread) (i : Int) :
    ∀ (l : List TId) (qs : List (List TId)) (kept : List TId),
    (mlfq_scan_go thr i qs kept l).length = qs.length := by
  intro l
  induction l with
  | nil =>
    intro qs kept
    rw [mlfq_scan_go, queue_set_length]
  | cons id rest ih =>
    intro qs kept
    rw [mlfq_scan_go]
    split_ifs
    · rw [ih]
    · rw [ih, queue_set_length]

theorem mlfq_scan_go_queue_at (thr : TId → Thread) (i : Int) :
    ∀ (l : List TId) (qs : List (List TId)) (kept : List TId) (j : Int),
    qs.length = MLFQ_QUEUE_SIZE → 0 ≤ i → i < 64 → 0 ≤ j →
    queue_at (mlfq_scan_go thr i qs kept l) j =
      (if j = i then
        kept ++ l.filter (fun id => decide (mlfq_get_priority (thr id) = i))
      else
        queue_at qs j ++ l.filter (fun id => decide (mlfq_get_priority (thr id) = j))) := by
  intro l
  induction l with
  | nil =>
    intro qs kept j hq hi0 hi64 hj0
    rw [mlfq_scan_go]
    by_cases hji : j = i
    · rw [if_pos hji, hji, List.filter_nil, List.append_nil,
          queue_at_set_self qs i kept (by rw [hq]; unfold MLFQ_QUEUE_SIZE; omega)]
    · rw [if_neg hji, List.filter_nil, List.append_nil,
          queue_at_set_ne qs i j kept (by omega)]
  | cons id rest ih =>
    intro qs kept j hq hi0 hi64 hj0
    rw [mlfq_scan_go]
    rcases mlfq_get_priority_bounds (thr id) with ⟨hp0, hp63⟩
    by_cases hpi : mlfq_get_priority (thr id) = i
    · rw [if_pos hpi, ih qs (kept ++ [id]) j hq hi0 hi64 hj0]
      by_cases hji : j = i
      · rw [if_pos hji, if_pos hji, List.filter_cons_of_pos (by simp [hpi, hji]),
            List.append_assoc]
        rfl
      · rw [if_neg hji, if_neg hji,
            List.filter_cons_of_neg (by simp; omega)]
    · rw [if_neg hpi,
          ih _ kept j (by rw [queue_set_length, hq]) hi0 hi64 hj0]
      by_cases hji : j = i
      · rw [if_pos hji, if_pos hji,
            List.filter_cons_of_neg (by simp; omega)]
      · rw [if_neg hji, if_neg hji]
        by_cases hpj : mlfq_get_priority (thr id) = j
        · rw [List.filter_cons_of_pos (by simp [hpj]), hpj,
              queue_at_set_self qs j _ (by rw [hq]; unfold MLFQ_QUEUE_SIZE; omega),
              List.append_assoc]
          rfl
        · rw [List.filter_cons_of_neg (by simp [hpj]),
              queue_at_set_ne qs _ j _ (by omega)]

theorem mlfq_fold_length (s : KState) :
    ∀ (l : List Nat) (qs : List (List TId)),
    (l.foldl (fun qs n => mlfq_scan_go s.threads (Int.ofNat n) qs []
      (queue_at qs (Int.ofNat n))) qs).length = qs.length := by
  intro l
  induction l with
  | nil => intro qs; rfl
  | cons n l ih =>
    intro qs
    rw [List.foldl_cons, ih, mlfq_scan_go_length]

theorem mlfq_fold_good (s : KState) (hlen : s.mlfq_queues.length = MLFQ_QUEUE_SIZE) :
    ∀ (k : Nat), k ≤ MLFQ_QUEUE_SIZE →
    ∀ j : Int, 0 ≤ j → j < (k : Int) →
    ∀ id ∈ queue_at ((List.range k).foldl
        (fun qs n => mlfq_scan_go s.threads (Int.ofNat n) qs []
          (queue_at qs (Int.ofNat n))) s.mlfq_queues) j,
      mlfq_get_priority (s.threads id) = j := by
  intro k
  induction k with
  | zero =>
    intro _ j hj0 hjk id hmem
    omega
  | succ k ih =>
    intro hk j hj0 hjk id hmem
    rw [List.range_succ, List.foldl_append, List.foldl_cons, List.foldl_nil] at hmem
    have hQlen : ((List.range k).foldl
        (fun qs n => mlfq_scan_go s.threads (Int.ofNat n) qs []
          (queue_at qs (Int.ofNat n))) s.mlfq_queues).length = MLFQ_QUEUE_SIZE := by
      rw [mlfq_fold_length, hlen]
    have hk64 : (k : Int) < 64 := by
      unfold MLFQ_QUEUE_SIZE at hk
      omega
    rw [mlfq_scan_go_queue_at s.threads (Int.ofNat k) _ _ _ j hQlen
      (Int.ofNat_nonneg k) hk64 hj0] at hmem
    by_cases hji : j = (Int.ofNat k)
    · rw [if_pos hji] at hmem
      simp only [List.nil_append, List.mem_filter, decide_eq_true_eq] at hmem
      rw [hmem.2, hji]
    · rw [if_neg hji] at hmem
      rcases List.mem_append.mp hmem with h | h
      · refine ih (by omega) j hj0 ?_ id h
        have hji2 : j ≠ (k : Int) := hji
        have hjk2 : j < ((k : Nat) + 1 : Int) := by push_cast at hjk; omega
        omega
      · simp only [List.mem_filter, decide_eq_true_eq] at h
        exact h.2

/-- Claim C4: immediately after the per-second recomputation pass mlfq_update
completes, every thread sitting in MLFQ queue j has
clamp(PRI_MAX - round(recent_cpu / 4) - 2 * nice, 0, PRI_MAX) = j, computed in
17.14 fixed point from the recent_cpu and nice the thread has at that moment. -/
theorem mlfq_update_bucket_invariant (s : KState)
    (hlen : s.mlfq_queues.length = MLFQ_QUEUE_SIZE)
    (j : Int) (hj0 : 0 ≤ j) (hj : j < 64) (id : TId)
    (hmem : id ∈ queue_at (mlfq_update s).mlfq_queues j) :
    j = max 0 (min PRI_MAX (PRI_MAX -
      fix_round (fix_div ((mlfq_update s).threads id).recent_cpu (fix_int 4)) -
      2 * ((mlfq_update s).threads id).nice)) := by
  have hthreads : (mlfq_update s).threads = s.threads := by
    simp only [mlfq_update]
  rw [hthreads, ← mlfq_get_priority_eq_clamp]
  simp only [mlfq_update] at hmem
  refine (mlfq_fold_good s hlen MLFQ_QUEUE_SIZE (le_refl _) j hj0 ?_ id hmem).symm
  unfold MLFQ_QUEUE_SIZE
  omega

/-- Witness for claim C4: in c4State thread 1 starts in queue 0 but its MLFQ
priority is 63; after mlfq_update it sits in queue 63, which matches the clamp
formula. -/
theorem mlfq_update_bucket_invariant_witness :
    1 ∈ queue_at (mlfq_update c4State).mlfq_queues 63 ∧
    (63 : Int) = max 0 (min PRI_MAX (PRI_MAX -
      fix_round (fix_div ((mlfq_update c4State).threads 1).recent_cpu (fix_int 4)) -
      2 * ((mlfq_update c4State).threads 1).nice)) :=
  ⟨by decide,
   mlfq_update_bucket_invariant c4State (by decide) 63 (by decide) (by decide) 1
     (by decide)⟩

/-! Claims C6 and C10: thread_tick. -/

theorem try_wake_go_load_avg : ∀ (fuel : Nat) (s : KState),
    (try_wake_go fuel s).load_avg = s.load_avg := by
  intro fuel
  induction fuel with
  | zero => intro s; rfl
  | succ fuel ih =>
    intro s
    rcases hl : s.blocked_sleeping_list with _ | ⟨id, rest⟩
    · simp only [try_wake_go, hl]
    · simp only [try_wake_go, hl]
      split_ifs
      · rfl
      · rw [ih, thread_unblock_load_avg]

theorem try_wake_go_recent_cpu : ∀ (fuel : Nat) (s : KState) (j : TId),
    ((try_wake_go fuel s).threads j).recent_cpu = (s.threads j).recent_cpu := by
  intro fuel
  induction fuel with
  | zero => intro s j; rfl
  | succ fuel ih =>
    intro s j
    rcases hl : s.blocked_sleeping_list with _ | ⟨id, rest⟩
    · simp only [try_wake_go, hl]
    · simp only [try_wake_go, hl]
      split_ifs
      · rfl
      · rw [ih, thread_unblock_threads_recent_cpu]

theorem try_wake_up_load_avg (u : KState) :
    (try_wake_up_sleeping_threads u).load_avg = u.load_avg :=
  try_wake_go_load_avg _ u

theorem try_wake_up_recent_cpu (u : KState) (j : TId) :
    ((try_wake_up_sleeping_threads u).threads j).recent_cpu = (u.threads j).recent_cpu :=
  try_wake_go_recent_cpu _ u j

theorem mlfq_update_threads (u : KState) : (mlfq_update u).threads = u.threads := by
  simp only [mlfq_update]

theorem mlfq_update_load_avg (u : KState) : (mlfq_update u).load_avg = u.load_avg := by
  simp only [mlfq_update]

theorem decay_step_load_avg (s : KState) (id : TId) :
    (decay_step s id).load_avg = s.load_avg := by
  unfold decay_step
  split_ifs <;> rfl

theorem decay_step_idle (s : KState) (id : TId) :
    (decay_step s id).idle_thread = s.idle_thread := by
  unfold decay_step
  split_ifs <;> rfl

theorem decay_step_threads_ne (s : KState) (id j : TId) (hj : j ≠ id) :
    (decay_step s id).threads j = s.threads j := by
  unfold decay_step
  split_ifs
  · rfl
  · exact updThread_threads_ne s id _ j hj

theorem foldl_decay_load_avg : ∀ (l : List TId) (s : KState),
    (l.foldl decay_step s).load_avg = s.load_avg := by
  intro l
  induction l with
  | nil => intro s; rfl
  | cons a l ih => intro s; rw [List.foldl_cons, ih, decay_step_load_avg]

theorem foldl_decay_threads_not_mem : ∀ (l : List TId) (s : KState) (j : TId),
    j ∉ l → (l.foldl decay_step s).threads j = s.threads j := by
  intro l
  induction l with
  | nil => intro s j _; rfl
  | cons a l ih =>
    intro s j hj
    rw [List.foldl_cons, ih _ j (fun hh => hj (List.mem_cons_of_mem a hh)),
        decay_step_threads_ne s a j (fun hh => hj (hh ▸ List.mem_cons_self a l))]

theorem foldl_decay_threads_mem : ∀ (l : List TId) (s : KState) (j : TId),
    l.Nodup → j ∈ l → j ≠ s.idle_thread →
    ((l.foldl decay_step s).threads j).recent_cpu =
      fix_add (fix_mul (recent_cpu_scale s.load_avg) ((s.threads j).recent_cpu))
        (fix_int ((s.threads j).nice)) := by
  intro l
  induction l with
  | nil => intro s j _ hj; simp at hj
  | cons a l ih =>
    intro s j hnd hj hji
    rcases List.nodup_cons.mp hnd with ⟨ha, hl⟩
    rw [List.foldl_cons]
    rcases List.mem_cons.mp hj with rfl | hj2
    · rw [foldl_decay_threads_not_mem l _ j ha]
      unfold decay_step
      rw [if_neg hji, updThread_threads_self]
    · have haj : j ≠ a := fun hh => ha (hh ▸ hj2)
      rw [ih _ j hl hj2 (by rw [decay_step_idle]; exact hji),
          decay_step_load_avg, decay_step_threads_ne s a j haj]

theorem thread_tick_stats_threads (u : KState) :
    (thread_tick_stats u).threads = u.threads := by
  unfold thread_tick_stats
  split_ifs <;> rfl

theorem thread_tick_stats_fields (u : KState) :
    (thread_tick_stats u).cur = u.cur ∧
    (thread_tick_stats u).idle_thread = u.idle_thread := by
  unfold thread_tick_stats
  split_ifs <;> exact ⟨rfl, rfl⟩

theorem thread_tick_pre_fields (s : KState) :
    (thread_tick_increment (thread_tick_stats s)).cur = s.cur ∧
    (thread_tick_increment (thread_tick_stats s)).idle_thread = s.idle_thread ∧
    (thread_tick_increment (thread_tick_stats s)).ticks = s.ticks ∧
    (thread_tick_increment (thread_tick_stats s)).thread_mlfqs = s.thread_mlfqs ∧
    (thread_tick_increment (thread_tick_stats s)).load_avg = s.load_avg ∧
    (thread_tick_increment (thread_tick_stats s)).mlfq_size = s.mlfq_size ∧
    (thread_tick_increment (thread_tick_stats s)).all_list = s.all_list := by
  unfold thread_tick_increment thread_tick_stats
  split_ifs <;> exact ⟨rfl, rfl, rfl, rfl, rfl, rfl, rfl⟩

theorem thread_tick_increment_recent (u : KState) (j : TId) :
    ((thread_tick_increment u).threads j).recent_cpu =
      (if j = u.cur ∧ u.cur ≠ u.idle_thread
       then fix_increment ((u.threads j).recent_cpu)
       else (u.threads j).recent_cpu) := by
  unfold thread_tick_increment
  by_cases h1 : u.cur ≠ u.idle_thread
  · rw [if_pos h1]
    by_cases hj : j = u.cur
    · rw [if_pos ⟨hj, h1⟩, hj, updThread_threads_self]
    · rw [if_neg (fun hc => hj hc.1), updThread_threads_ne _ _ _ _ hj]
  · rw [if_neg h1, if_neg (fun hc => h1 hc.2)]

theorem thread_tick_increment_nice (u : KState) (j : TId) :
    ((thread_tick_increment u).threads j).nice = (u.threads j).nice := by
  unfold thread_tick_increment
  split_ifs
  · by_cases hj : j = u.cur
    · rw [hj, updThread_threads_self]
    · rw [updThread_threads_ne _ _ _ _ hj]
  · rfl

theorem thread_tick_slice_threads (u : KState) :
    (thread_tick_slice u).threads = u.threads := by
  simp only [thread_tick_slice]
  split_ifs <;> rfl

theorem thread_tick_slice_load (u : KState) :
    (thread_tick_slice u).load_avg = u.load_avg := by
  simp only [thread_tick_slice]
  split_ifs <;> rfl

theorem thread_tick_update_skip (u : KState)
    (hc : ¬ (u.ticks % TIMER_FREQ = 0 ∧ u.thread_mlfqs = true)) :
    thread_tick_update u = u := by
  simp only [thread_tick_update]
  rw [if_neg hc]

theorem thread_tick_update_boundary (u : KState)
    (hc : u.ticks % TIMER_FREQ = 0 ∧ u.thread_mlfqs = true) :
    thread_tick_update u =
      mlfq_update (u.all_list.foldl decay_step
        { u with load_avg :=
                    fix_add (fix_mul (fix_frac 59 60) u.load_avg)
                      (fix_mul (fix_frac 1 60)
                        (fix_int (u.mlfq_size +
                          (if u.cur ≠ u.idle_thread then 1 else 0)))) }) := by
  simp only [thread_tick_update]
  rw [if_pos hc]

/-- Claim C10: thread_tick increments the recent_cpu of the running thread by
one fixed-point unit whenever it is not the idle thread, under both policies:
the final recent_cpu of the running thread equals fix_increment of its previous
value whenever the priority policy is active, and likewise under MLFQ on any
tick that is not a second boundary (on a boundary the increment still happens
but is then fed through the per-second decay, covered by claim C6). -/
theorem thread_tick_increments_recent_cpu (s : KState) (h : s.cur ≠ s.idle_thread) :
    (s.thread_mlfqs = false →
      ((thread_tick s).threads s.cur).recent_cpu =
        fix_increment ((s.threads s.cur).recent_cpu)) ∧
    (s.ticks % TIMER_FREQ ≠ 0 →
      ((thread_tick s).threads s.cur).recent_cpu =
        fix_increment ((s.threads s.cur).recent_cpu)) := by
  have key : ∀ _ : ¬ (s.ticks % TIMER_FREQ = 0 ∧ s.thread_mlfqs = true),
      ((thread_tick s).threads s.cur).recent_cpu =
        fix_increment ((s.threads s.cur).recent_cpu) := by
    intro hcond
    rcases thread_tick_pre_fields s with ⟨hcur, hidle2, hticks, hmfl, _, _, _⟩
    unfold thread_tick
    rw [thread_tick_slice_threads, try_wake_up_recent_cpu,
        thread_tick_update_skip _ (by rw [hticks, hmfl]; exact hcond),
        thread_tick_increment_recent, thread_tick_stats_threads,
        (thread_tick_stats_fields s).1, (thread_tick_stats_fields s).2,
        if_pos ⟨rfl, h⟩]
  refine ⟨?_, ?_⟩
  · intro hc
    refine key ?_
    intro hcc
    rw [hc] at hcc
    exact absurd hcc.2 (by simp)
  · intro hc
    exact key (fun hcc => hc hcc.1)

/-- Witness for claim C10: in c10State the priority policy is active and the
tick leaves the running thread with its recent_cpu incremented by one
fixed-point unit. -/
theorem thread_tick_increments_recent_cpu_witness :
    ((thread_tick c10State).threads c10State.cur).recent_cpu =
      fix_increment ((c10State.threads c10State.cur).recent_cpu) :=
  (thread_tick_increments_recent_cpu c10State (by decide)).1 (by decide)

/-- Claim C6: on a tick whose count is a multiple of TIMER_FREQ under MLFQ, the
tick handler first sets load_avg to (59/60) * load_avg + (1/60) * ready_n where
ready_n is the MLFQ size counter plus 1 when the running thread is not idle,
and then sets the recent_cpu of every thread in the all-threads list except the
idle thread to (2 * load_avg) / (2 * load_avg + 1) * recent_cpu + nice using
the just-updated load_avg and the recent_cpu as already incremented for the
running thread, all in 17.14 fixed-point arithmetic. -/
theorem thread_tick_per_second_recomputation (s : KState)
    (hb : s.ticks % TIMER_FREQ = 0) (hm : s.thread_mlfqs = true)
    (hnd : s.all_list.Nodup) :
    ((thread_tick s).load_avg =
      fix_add (fix_mul (fix_frac 59 60) s.load_avg)
        (fix_mul (fix_frac 1 60)
          (fix_int (s.mlfq_size + (if s.cur ≠ s.idle_thread then 1 else 0))))) ∧
    (∀ id ∈ s.all_list, id ≠ s.idle_thread →
      ((thread_tick s).threads id).recent_cpu =
        fix_add
          (fix_mul
            (fix_div
              (fix_mul (fix_int 2)
                (fix_add (fix_mul (fix_frac 59 60) s.load_avg)
                  (fix_mul (fix_frac 1 60)
                    (fix_int (s.mlfq_size +
                      (if s.cur ≠ s.idle_thread then 1 else 0))))))
              (fix_add
                (fix_mul (fix_int 2)
                  (fix_add (fix_mul (fix_frac 59 60) s.load_avg)
                    (fix_mul (fix_frac 1 60)
                      (fix_int (s.mlfq_size +
                        (if s.cur ≠ s.idle_thread then 1 else 0))))))
                (fix_int 1)))
            (if id = s.cur then fix_increment ((s.threads id).recent_cpu)
             else (s.threads id).recent_cpu))
          (fix_int ((s.threads id).nice))) := by
  rcases thread_tick_pre_fields s with ⟨hcur, hidle2, hticks, hmfl, hload, hsize, hall⟩
  constructor
  · unfold thread_tick
    rw [thread_tick_slice_load, try_wake_up_load_avg,
        thread_tick_update_boundary _ (by rw [hticks, hmfl]; exact ⟨hb, hm⟩),
        mlfq_update_load_avg, foldl_decay_load_avg]
    dsimp only
    rw [hload, hsize, hcur, hidle2]
  · intro id hid hidne
    unfold thread_tick
    rw [thread_tick_slice_threads, try_wake_up_recent_cpu,
        thread_tick_update_boundary _ (by rw [hticks, hmfl]; exact ⟨hb, hm⟩),
        mlfq_update_threads,
        foldl_decay_threads_mem _ _ id (by rw [hall]; exact hnd)
          (by rw [hall]; exact hid)
          (show id ≠ _ by dsimp only; rw [hidle2]; exact hidne)]
    dsimp only
    simp only [recent_cpu_scale]
    rw [hload, hsize, hcur, hidle2,
        thread_tick_increment_recent, thread_tick_stats_threads,
        (thread_tick_stats_fields s).1, (thread_tick_stats_fields s).2,
        thread_tick_increment_nice, thread_tick_stats_threads]
    by_cases hc : id = s.cur
    · rw [if_pos (show id = s.cur ∧ s.cur ≠ s.idle_thread from ⟨hc, hc ▸ hidne⟩),
          if_pos hc]
    · rw [if_neg (show ¬ (id = s.cur ∧ s.cur ≠ s.idle_thread) from fun hcc => hc hcc.1),
          if_neg hc]

/-- Witness for claim C6: in c6State, at tick 200 under MLFQ, the tick handler
produces exactly the specified load_avg. -/
theorem thread_tick_per_second_recomputation_witness :
    (thread_tick c6State).load_avg =
      fix_add (fix_mul (fix_frac 59 60) c6State.load_avg)
        (fix_mul (fix_frac 1 60)
          (fix_int (c6State.mlfq_size +
            (if c6State.cur ≠ c6State.idle_thread then 1 else 0)))) :=
  (thread_tick_per_second_recomputation c6State (by decide) (by decide)
    (by decide)).1

end Pintos
